import Mathlib

/-!
Verification of the fixed-width transaction-file manager.

The Python sources (validation.py, data_factory.py, models.py,
file_operations.py, cli.py) are shallowly embedded below.  Strings are
`List Char`; Python `float` values are modelled as exact decimals
(`Dec`, an integer numerator with a power-of-ten exponent), which is
faithful on the two-decimal fixed-point domain this program works in
(exotic float forms such as `inf`, `nan` and exponent notation are
outside the model).  Fallible Python code returns `Except PyError`.
Mutation of `self` is explicit state passing on `Session`.
-/

abbrev Str := List Char

/-- Python `str.isspace` characters relevant to `str.strip()`. -/
def isPySpace (c : Char) : Bool :=
  c == ' ' || c == '\t' || c == '\n' || c == '\r' || c == '\x0b' || c == '\x0c'

/-- Python `s.strip()`: remove leading and trailing whitespace. -/
def pyStrip (s : Str) : Str :=
  ((s.dropWhile isPySpace).reverse.dropWhile isPySpace).reverse

/-- Python `s.rstrip('\r\n')`: remove trailing CR and LF characters. -/
def rstripCRLF (s : Str) : Str :=
  (s.reverse.dropWhile (fun c => c == '\r' || c == '\n')).reverse

/-- Python slicing `s[a:b]` (with `a ≤ b`, clamped at the end). -/
def pySlice (a b : Nat) (s : Str) : Str := (s.drop a).take (b - a)

/-- Python `s.rjust(w, c)`: pad on the left with `c` up to width `w`. -/
def padLeft (c : Char) (w : Nat) (s : Str) : Str :=
  List.replicate (w - s.length) c ++ s

def pow10 : Nat → Int
  | 0 => 1
  | n + 1 => 10 * pow10 n

def digitChar : Nat → Char
  | 0 => '0' | 1 => '1' | 2 => '2' | 3 => '3' | 4 => '4'
  | 5 => '5' | 6 => '6' | 7 => '7' | 8 => '8' | _ => '9'

/-- Decimal digit list of a natural number, most significant first.
Fuel-based structural recursion so the kernel can evaluate it. -/
def natDigitsFuel : Nat → Nat → List Nat
  | 0, _ => []
  | fuel + 1, n => if n < 10 then [n] else natDigitsFuel fuel (n / 10) ++ [n % 10]

def natDigits (n : Nat) : List Nat := natDigitsFuel (n + 1) n

def natDigitChars (n : Nat) : Str := (natDigits n).map digitChar

/-- Numeric value of a digit-character list (most significant first). -/
def digitsVal (s : Str) : Nat := s.foldl (fun a c => a * 10 + (c.toNat - 48)) 0

def allDigits (s : Str) : Bool := s.all Char.isDigit

/-- Parse a non-empty all-digit character list. -/
def parseNatDigits (s : Str) : Option Nat :=
  if s.isEmpty || !allDigits s then none else some (digitsVal s)

/-- Python `int(string)`: optional surrounding whitespace, optional sign,
then a non-empty run of decimal digits. -/
def parseIntStr (s : Str) : Option Int :=
  match pyStrip s with
  | '-' :: r => (parseNatDigits r).map (fun n => -(n : Int))
  | '+' :: r => (parseNatDigits r).map (fun n => (n : Int))
  | t => (parseNatDigits t).map (fun n => (n : Int))

/-- Split at the single decimal point, if any; `none` when more than one
point occurs (Python float parse failure). -/
def splitDot (s : Str) : Option (Str × Option Str) :=
  match s.dropWhile (fun c => c != '.') with
  | [] => some (s, none)
  | _ :: rest =>
      if rest.contains '.' then none
      else some (s.takeWhile (fun c => c != '.'), some rest)

/-- Exact decimal: the value `num / 10 ^ exp`.  Model of the Python
floats this program manipulates. -/
structure Dec where
  num : Int
  exp : Nat
deriving DecidableEq

/-- Parse the unsigned body of a Python float literal: digits with an
optional decimal point, at least one digit overall.  Returns the value
scaled by `10 ^ exp` together with `exp`. -/
def parseUnsignedFloat (s : Str) : Option (Nat × Nat) :=
  match splitDot s with
  | none => none
  | some (ip, none) => (parseNatDigits ip).map (fun n => (n, 0))
  | some (ip, some fp) =>
      if ip.isEmpty && fp.isEmpty then none
      else if allDigits ip && allDigits fp then
        some (digitsVal ip * 10 ^ fp.length + digitsVal fp, fp.length)
      else none

/-- Python `float(string)` on the plain decimal forms used by this
program (sign, digits, optional point). -/
def parseFloatStr (s : Str) : Option Dec :=
  match pyStrip s with
  | '-' :: r => (parseUnsignedFloat r).map (fun p => { num := -(p.1 : Int), exp := p.2 })
  | '+' :: r => (parseUnsignedFloat r).map (fun p => { num := (p.1 : Int), exp := p.2 })
  | t => (parseUnsignedFloat t).map (fun p => { num := (p.1 : Int), exp := p.2 })

/-- Exact decimal addition (denominators multiply). -/
def Dec.add (a b : Dec) : Dec :=
  { num := a.num * pow10 b.exp + b.num * pow10 a.exp, exp := a.exp + b.exp }

/-- Division rounding half to even (the rule Python's float formatting
uses); exact on the inputs this program produces. -/
def roundHalfEvenDiv (n m : Int) : Int :=
  let q := Int.fdiv n m
  let r := n - q * m
  if 2 * r < m then q
  else if m < 2 * r then q + 1
  else if q % 2 = 0 then q else q + 1

/-- The value of `d` in hundredths, rounded to the nearest integer. -/
def Dec.cents (d : Dec) : Int :=
  if d.exp ≤ 2 then d.num * pow10 (2 - d.exp)
  else roundHalfEvenDiv d.num (pow10 (d.exp - 2))

/-- Python `int(float)`: truncation toward zero. -/
def Dec.toIntTrunc (d : Dec) : Int := Int.tdiv d.num (pow10 d.exp)

/-- Python `f"{n:0{w}d}"`: zero-padded decimal, sign aware. -/
def formatIntPadded (n : Int) (w : Nat) : Str :=
  if n < 0 then '-' :: padLeft '0' (w - 1) (natDigitChars n.natAbs)
  else padLeft '0' w (natDigitChars n.natAbs)

/-- Python `f"{x:0{w}.2f}"`: two fraction digits, zero-padded, sign aware. -/
def formatFloatPadded (d : Dec) (w : Nat) : Str :=
  let c := d.cents
  let core := natDigitChars (c.natAbs / 100) ++ '.' :: padLeft '0' 2 (natDigitChars (c.natAbs % 100))
  if c < 0 then '-' :: padLeft '0' (w - 1) core else padLeft '0' w core

/-- Python `f"{x:.2f}"`. -/
def format2f (d : Dec) : Str := formatFloatPadded d 0

/-! ## Python value and error taxonomy (exceptions.py) -/

/-- A Python value flowing through the validators: an `int`, a `float`
(exact-decimal model), or a `str`. -/
inductive PyVal where
  | vInt (n : Int)
  | vFloat (x : Dec)
  | vStr (s : Str)
deriving DecidableEq

/-- The `expected_type` argument of `DataValidator.validate_type`. -/
inductive PyType where
  | tInt | tFloat | tStr
deriving DecidableEq

/-- The exception kinds of exceptions.py plus the built-in
`FileNotFoundError`; `uncaught` stands for a raw Python exception that
none of the repository handlers names (e.g. a bare `ValueError`), and
`cliMessage` for a CLI path that prints a refusal and returns without
raising. -/
inductive PyError where
  | fileNotFound (msg : String)
  | dataValidationError (msg : String)
  | dataFactorError (msg : String)
  | fileFormatError (msg : String)
  | uncaught (msg : String)
  | cliMessage (msg : String)
deriving DecidableEq

/-! ## DataValidator (validation.py) -/

/-- Python `float(value)` over our value domain. -/
def pyFloatOf : PyVal → Option Dec
  | .vInt n => some { num := n, exp := 0 }
  | .vFloat d => some d
  | .vStr s => parseFloatStr s

/-- Python `int(value)` over our value domain. -/
def pyIntOf : PyVal → Option Int
  | .vInt n => some n
  | .vFloat d => some d.toIntTrunc
  | .vStr s => parseIntStr s

/-- `DataValidator.validate_type` (validation.py lines 13-53): numeric
expected types attempt a conversion and reject negatives; `str` requires
an actual string; the accepted value is returned unchanged. -/
def validate_type (value : PyVal) (expected : PyType) : Except PyError PyVal :=
  match expected with
  | .tFloat =>
      match pyFloatOf value with
      | none => .error (.dataValidationError "Expected a float")
      | some d =>
          if d.num < 0 then .error (.dataValidationError "The numbers cannot be negative")
          else .ok value
  | .tInt =>
      match pyIntOf value with
      | none => .error (.dataValidationError "Expected an int")
      | some n =>
          if n < 0 then .error (.dataValidationError "The numbers cannot be negative")
          else .ok value
  | .tStr =>
      match value with
      | .vStr _ => .ok value
      | _ => .error (.dataValidationError "Expected value type str")

/-- The formatted string `validate_fixed_width` builds before its width
check: ints zero-padded, floats zero-padded with two fraction digits,
everything else right-justified with spaces. -/
def pyFormatValue (value : PyVal) (width : Nat) : Str :=
  match value with
  | .vInt n => formatIntPadded n width
  | .vFloat d => formatFloatPadded d width
  | .vStr s => padLeft ' ' width s

/-- `DataValidator.validate_fixed_width` (validation.py lines 55-89). -/
def validate_fixed_width (value : PyVal) (width : Nat) : Except PyError Str :=
  let f := pyFormatValue value width
  if f.length > width then
    .error (.dataValidationError "Formatted value exceeds maximum width")
  else .ok f

/-- The per-field body shared by `validate_dataclass` and
`validate_field`: `validate_type` then `validate_fixed_width` against
the field metadata `(type, fixed_width)`; the formatted string is what
gets stored in the field. -/
def validate_field_value (ty : PyType) (width : Nat) (value : PyVal) : Except PyError Str := do
  let _ ← validate_type value ty
  validate_fixed_width value width

def msgCount : String := "File must contain at least one header, one transaction, and one footer."
def msgLength : String := "Each line must be exactly 120 characters long."
def msgTags : String := "File must start with a header and end with a footer."
def msgTxTag : String := "Each transaction must start with 02 id"
def msgTxCount : String := "The number of transaction records must be between 1 and 20,000."

/-- `DataValidator.validate_file_structure` (validation.py lines
109-157), with the source's check order: line count, then line length
(terminators trimmed), then first/last tags, then interior tags, then
interior count. -/
def validate_file_structure (lines : List Str) : Except PyError Unit :=
  if lines.length < 3 then .error (.dataValidationError msgCount)
  else if lines.any (fun l => (rstripCRLF l).length != 120) then
    .error (.dataValidationError msgLength)
  else if !("01".data.isPrefixOf (lines.headD []) && "03".data.isPrefixOf (lines.getLastD [])) then
    .error (.dataValidationError msgTags)
  else if ((lines.drop 1).dropLast).any (fun l => !("02".data.isPrefixOf l)) then
    .error (.dataValidationError msgTxTag)
  else if !(decide (1 ≤ ((lines.drop 1).dropLast).length) && decide (((lines.drop 1).dropLast).length ≤ 20000)) then
    .error (.dataValidationError msgTxCount)
  else .ok ()

def ALLOWED_CURRENCIES : List Str := ["USD".data, "EUR".data, "GBP".data, "PLN".data]

/-! ## Record models (models.py) -/

/-- A constructed `Header`; fields hold the fixed-width formatted
strings `validate_dataclass` stored. -/
structure Header where
  name : Str
  surname : Str
  patronymic : Str
  address : Str
deriving DecidableEq

def Header.to_fixed_width_string (h : Header) : Str :=
  "01".data ++ h.name ++ h.surname ++ h.patronymic ++ h.address

structure Transaction where
  counter : Str
  amount : Str
  currency : Str
  reserved : Str
deriving DecidableEq

def Transaction.to_fixed_width_string (t : Transaction) : Str :=
  "02".data ++ t.counter ++ t.amount ++ t.currency ++ t.reserved

structure Footer where
  total_counter : Str
  control_sum : Str
  reserved : Str
deriving DecidableEq

def Footer.to_fixed_width_string (f : Footer) : Str :=
  "03".data ++ f.total_counter ++ f.control_sum ++ f.reserved

/-! ## DataFactory (data_factory.py) -/

/-- `create_*` catches `DataValidationError` raised during record
construction and re-raises it as `DataFactorError`. -/
def wrapFactory : PyError → PyError
  | .dataValidationError m => .dataFactorError m
  | e => e

/-- `DataFactory.create_header`: field validation in dataclass order
(name 28/str, surname 30/str, patronymic 30/str, address 30/str). -/
def create_header (name surname patronymic address : PyVal) : Except PyError Header :=
  match (do
    let n ← validate_field_value .tStr 28 name
    let sn ← validate_field_value .tStr 30 surname
    let p ← validate_field_value .tStr 30 patronymic
    let a ← validate_field_value .tStr 30 address
    pure (Header.mk n sn p a) : Except PyError Header) with
  | .error e => .error (wrapFactory e)
  | .ok h => .ok h

/-- `DataFactory.create_transaction`: counter 6/str, amount 12/float,
currency 3/str, reserved 97/str. -/
def create_transaction (counter amount currency reserved : PyVal) : Except PyError Transaction :=
  match (do
    let c ← validate_field_value .tStr 6 counter
    let a ← validate_field_value .tFloat 12 amount
    let cu ← validate_field_value .tStr 3 currency
    let r ← validate_field_value .tStr 97 reserved
    pure (Transaction.mk c a cu r) : Except PyError Transaction) with
  | .error e => .error (wrapFactory e)
  | .ok t => .ok t

/-- `DataFactory.create_footer`: total_counter 6/int, control_sum
12/float, reserved 100/str. -/
def create_footer (total_counter control_sum reserved : PyVal) : Except PyError Footer :=
  match (do
    let tc ← validate_field_value .tInt 6 total_counter
    let cs ← validate_field_value .tFloat 12 control_sum
    let r ← validate_field_value .tStr 100 reserved
    pure (Footer.mk tc cs r) : Except PyError Footer) with
  | .error e => .error (wrapFactory e)
  | .ok f => .ok f

structure HeaderData where
  name : Str
  surname : Str
  patronymic : Str
  address : Str
deriving DecidableEq

/-- `DataFactory.parse_header_data`: slice the line at the fixed
offsets, stripping each field; the leading tag must be `01`. -/
def parse_header_data (data : Str) : Except PyError HeaderData :=
  if pyStrip (pySlice 0 2 data) ≠ "01".data then
    .error (.dataValidationError "Field ID for header must be 01.")
  else
    .ok { name := pyStrip (pySlice 2 30 data)
        , surname := pyStrip (pySlice 30 60 data)
        , patronymic := pyStrip (pySlice 60 90 data)
        , address := pyStrip (pySlice 90 120 data) }

structure TransactionData where
  counter : Str
  amount : Str
  currency : Str
  reserved : Str
deriving DecidableEq

/-- `DataFactory.parse_transaction_data`: offsets [2:8] counter,
[8:20] amount, [20:23] currency, [23:120] reserved; tag `02`. -/
def parse_transaction_data (data : Str) : Except PyError TransactionData :=
  if pyStrip (pySlice 0 2 data) ≠ "02".data then
    .error (.dataValidationError "Field ID for transaction must be 02.")
  else
    .ok { counter := pyStrip (pySlice 2 8 data)
        , amount := pyStrip (pySlice 8 20 data)
        , currency := pyStrip (pySlice 20 23 data)
        , reserved := pyStrip (pySlice 23 120 data) }

structure FooterData where
  total_counter : Str
  control_sum : Str
  reserved : Str
deriving DecidableEq

/-- `DataFactory.parse_footer_data`: offsets [2:8] total_counter,
[8:20] control_sum, [20:120] reserved; tag `03`. -/
def parse_footer_data (data : Str) : Except PyError FooterData :=
  if pyStrip (pySlice 0 2 data) ≠ "03".data then
    .error (.dataValidationError "Field ID for footer must be 03.")
  else
    .ok { total_counter := pyStrip (pySlice 2 8 data)
        , control_sum := pyStrip (pySlice 8 20 data)
        , reserved := pyStrip (pySlice 20 120 data) }

/-! ## FileOperations (file_operations.py) -/

/-- The mutable state of a `FileOperations` instance. -/
structure Session where
  header : Option Header
  transactions : List Transaction
  footer : Option Footer
  is_loaded : Bool
  currency : Str
deriving DecidableEq

/-- The state `__init__` establishes, which is also what `read_file`
resets a previously loaded session to. -/
def freshSession : Session :=
  { header := none, transactions := [], footer := none, is_loaded := false, currency := [] }

/-- `read_file` catches `DataValidationError` and re-raises it as
`FileFormatError`; `FileNotFoundError` and `DataFactorError` propagate
unchanged. -/
def wrapLoad : PyError → PyError
  | .dataValidationError m => .fileFormatError m
  | e => e

/-- The transaction loop of `read_file` (file_operations.py lines
66-71): parse each interior line, reject a currency differing from the
file-wide one, build the record, and append it to the session state.
Partially appended transactions stay in the state when a later line
fails, exactly as the Python loop mutates `self.transactions`. -/
def load_transactions (cur : Str) (lns : List Str) (s : Session) : Session × Option PyError :=
  match lns with
  | [] => (s, none)
  | l :: rest =>
      match parse_transaction_data l with
      | .error e => (s, some (wrapLoad e))
      | .ok td =>
          if td.currency ≠ cur then
            (s, some (.fileFormatError "Currency mismatch found"))
          else
            match create_transaction (.vStr td.counter) (.vStr td.amount) (.vStr td.currency) (.vStr td.reserved) with
            | .error e => (s, some e)
            | .ok t => load_transactions cur rest { s with transactions := s.transactions ++ [t] }

/-- `FileOperations.read_file` (file_operations.py lines 31-95).
`fileExists` stands for `os.path.exists` on the resolved path and
`lines` for `file.readlines()` (each element keeps its terminator).
The returned pair is the session state after the call together with
the exception it raised, if any.  The source mutates `self` as it goes:
state changed before a failure is kept, only `is_loaded` stays `False`.
Note the source order: currency is read from `lines[1]` *before*
structural validation (an out-of-range index is a generic exception,
wrapped into `FileFormatError`). -/
def read_file (fileExists : Bool) (lines : List Str) (s0 : Session) : Session × Option PyError :=
  let s := if s0.is_loaded then freshSession else s0
  if !fileExists then (s, some (.fileNotFound "No file found at the specified path"))
  else
    match lines.get? 1 with
    | none => (s, some (.fileFormatError "Error reading or validating file: list index out of range"))
    | some l1 =>
        match parse_transaction_data l1 with
        | .error e => (s, some (wrapLoad e))
        | .ok td1 =>
            if td1.currency ∉ ALLOWED_CURRENCIES then
              (s, some (.fileFormatError "Invalid currency in the first transaction"))
            else
              let s1 := { s with currency := td1.currency }
              match validate_file_structure lines with
              | .error e => (s1, some (wrapLoad e))
              | .ok _ =>
                  match parse_header_data (lines.headD []) with
                  | .error e => (s1, some (wrapLoad e))
                  | .ok hd =>
                      match create_header (.vStr hd.name) (.vStr hd.surname) (.vStr hd.patronymic) (.vStr hd.address) with
                      | .error e => (s1, some e)
                      | .ok h =>
                          let s2 := { s1 with header := some h }
                          match load_transactions td1.currency ((lines.drop 1).dropLast) s2 with
                          | (s3, some e) => (s3, some e)
                          | (s3, none) =>
                              match parse_footer_data (lines.getLastD []) with
                              | .error e => (s3, some (wrapLoad e))
                              | .ok fd =>
                                  match create_footer (.vStr fd.total_counter) (.vStr fd.control_sum) (.vStr fd.reserved) with
                                  | .error e => (s3, some e)
                                  | .ok f =>
                                      ({ s3 with footer := some f, is_loaded := true }, none)

/-- The file-system facts `save_file` can observe: whether the target
file already exists (`os.path.exists` on the full path), whether its
containing directory exists, and whether writing raises an IO error.
A file can only exist inside an existing directory. -/
structure FileSystem where
  fileExists : Bool
  dirExists : Bool
  ioError : Bool
deriving DecidableEq

/-- `FileOperations.save_file` (file_operations.py lines 131-157):
checks `validate_file_exists` on the *target file path*, then writes
the header line, each transaction line in order, and the footer line.
`none` in `header`/`footer` is an `AttributeError`, wrapped by the
generic handler into `FileFormatError`.  Returns the written lines
(without the `'\n'` terminator appended to each). -/
def save_file (fs : FileSystem) (s : Session) : Except PyError (List Str) :=
  if !fs.fileExists then .error (.fileNotFound "No file found at the specified path")
  else if fs.ioError then .error (.fileFormatError "Error reading or validating file")
  else
    match s.header, s.footer with
    | some h, some f =>
        .ok (h.to_fixed_width_string :: s.transactions.map Transaction.to_fixed_width_string ++ [f.to_fixed_width_string])
    | _, _ => .error (.fileFormatError "Error reading or validating file")

/-- The failure condition of `save_file` as the specification words it:
the path's containing location does not exist, or an IO error occurs.
(Second definition, written from the spec, for comparison with
`save_file` above.) -/
def save_fails_according_to_spec (fs : FileSystem) : Prop :=
  fs.dirExists = false ∨ fs.ioError = true

/-- `FileOperations.update_footer` (file_operations.py lines 175-188):
computes `f"{int(total_counter) + 1:06d}"` and
`f"{float(control_sum) + float(amount):.2f}".rjust(12, '0')`, then runs
`validate_field` on `control_sum` *first* and `total_counter` second.
`validate_field` stores the re-formatted value into the field as soon
as its own checks pass, so a `total_counter` failure leaves the new
`control_sum` already committed.  A failed `int`/`float` conversion on
line 179-180 is an uncaught `ValueError`. -/
def update_footer (amount : Str) (f : Footer) : Footer × Option PyError :=
  match parseIntStr f.total_counter, parseFloatStr f.control_sum, parseFloatStr amount with
  | some n, some cs, some am =>
      let newTC := formatIntPadded (n + 1) 6
      let newCS := padLeft '0' 12 (format2f (cs.add am))
      match validate_field_value .tFloat 12 (.vStr newCS) with
      | .error e => (f, some e)
      | .ok v1 =>
          let f1 := { f with control_sum := v1 }
          match validate_field_value .tInt 6 (.vStr newTC) with
          | .error e => (f1, some e)
          | .ok v2 => ({ f1 with total_counter := v2 }, none)
  | _, _, _ => (f, some (.uncaught "ValueError in int or float conversion"))

/-- `CLI.do_add_transaction` (cli.py lines 216-277) without the final
`save_file` call (which does not change the in-memory state): validate
the amount, build the next transaction with counter
`len(transactions) + 1` zero-padded to 6, append it, then
`update_footer(amount)`.  The transaction is appended *before* the
footer update, so a footer failure keeps the appended transaction. -/
def add_transaction (amount : Str) (s : Session) : Session × Option PyError :=
  if s.currency.isEmpty then (s, some (.cliMessage "Currency not set"))
  else
    match validate_type (.vStr amount) .tFloat with
    | .error e => (s, some e)
    | .ok _ =>
        match parseFloatStr amount with
        | none => (s, some (.uncaught "float conversion failed"))
        | some am =>
            let newCounter := formatIntPadded ((s.transactions.length : Int) + 1) 6
            match create_transaction (.vStr newCounter) (.vFloat am) (.vStr s.currency) (.vStr (List.replicate 96 ' ')) with
            | .error e => (s, some e)
            | .ok t =>
                let s1 := { s with transactions := s.transactions ++ [t] }
                match s1.footer with
                | none => (s1, some (.uncaught "footer is None"))
                | some f =>
                    let fe := update_footer amount f
                    ({ s1 with footer := some fe.1 }, fe.2)

/-! ## Auxiliary predicates used by the theorems -/

/-- Numeric value of a digit list (most significant first). -/
def digitsNatVal (ds : List Nat) : Nat := ds.foldl (fun a d => a * 10 + d) 0

/-- One interior line was parsed, currency-checked and built into a
transaction record (the relation the `read_file` loop establishes). -/
def txRel (cur : Str) (l : Str) (t : Transaction) : Prop :=
  ∃ td, parse_transaction_data l = .ok td ∧ td.currency = cur ∧
    create_transaction (.vStr td.counter) (.vStr td.amount) (.vStr td.currency) (.vStr td.reserved) = .ok t

/-- An interior line passes parsing, the currency check and record
construction (per-record field validation). -/
def txOk (cur : Str) (l : Str) : Prop :=
  ∃ td t, parse_transaction_data l = .ok td ∧ td.currency = cur ∧
    create_transaction (.vStr td.counter) (.vStr td.amount) (.vStr td.currency) (.vStr td.reserved) = .ok t

/-- A field slice of a 120-character record line is already in the
canonical stored form (right-justified: re-padding its stripped content
reproduces it). -/
def canonicalField (w a b : Nat) (content : Str) : Prop :=
  padLeft ' ' w (pyStrip (pySlice a b content)) = pySlice a b content

def canonicalHeaderContent (c : Str) : Prop :=
  canonicalField 28 2 30 c ∧ canonicalField 30 30 60 c ∧
  canonicalField 30 60 90 c ∧ canonicalField 30 90 120 c

def canonicalTransactionContent (c : Str) : Prop :=
  canonicalField 6 2 8 c ∧ canonicalField 12 8 20 c ∧
  canonicalField 3 20 23 c ∧ canonicalField 97 23 120 c

def canonicalFooterContent (c : Str) : Prop :=
  canonicalField 6 2 8 c ∧ canonicalField 12 8 20 c ∧ canonicalField 100 20 120 c

instance (w a b : Nat) (c : Str) : Decidable (canonicalField w a b c) :=
  inferInstanceAs (Decidable (padLeft ' ' w (pyStrip (pySlice a b c)) = pySlice a b c))

instance (c : Str) : Decidable (canonicalHeaderContent c) :=
  inferInstanceAs (Decidable (canonicalField 28 2 30 c ∧ canonicalField 30 30 60 c ∧
    canonicalField 30 60 90 c ∧ canonicalField 30 90 120 c))

instance (c : Str) : Decidable (canonicalTransactionContent c) :=
  inferInstanceAs (Decidable (canonicalField 6 2 8 c ∧ canonicalField 12 8 20 c ∧
    canonicalField 3 20 23 c ∧ canonicalField 97 23 120 c))

instance (c : Str) : Decidable (canonicalFooterContent c) :=
  inferInstanceAs (Decidable (canonicalField 6 2 8 c ∧ canonicalField 12 8 20 c ∧
    canonicalField 100 20 120 c))

/-- The `total_counter` value carried by the footer line of a file. -/
def footerTotalCounterOf (lines : List Str) : Option Int :=
  parseIntStr (pyStrip (pySlice 2 8 (lines.getLastD [])))

/-- The `control_sum` value (in cents) carried by the footer line. -/
def footerControlSumCentsOf (lines : List Str) : Option Int :=
  (parseFloatStr (pyStrip (pySlice 8 20 (lines.getLastD [])))).map Dec.cents

/-- Sum (in cents) of the parsed amounts of the interior lines. -/
def txAmountCentsSumOf (lines : List Str) : Int :=
  ((lines.drop 1).dropLast).foldl
    (fun acc l => acc + ((parseFloatStr (pyStrip (pySlice 8 20 l))).map Dec.cents).getD 0) 0

/-- The footer does not agree with the transaction lines: its counter
is not the number of transactions, or its control sum is not the sum of
the amounts. -/
def footerInconsistent (lines : List Str) : Prop :=
  footerTotalCounterOf lines ≠ some (((lines.drop 1).dropLast).length : Int) ∨
  footerControlSumCentsOf lines ≠ some (txAmountCentsSumOf lines)

/-! ## Concrete inputs used by witnesses and counterexamples -/

def exHeaderLine : Str :=
  "01".data ++ padLeft ' ' 28 "John".data ++ padLeft ' ' 30 "Doe".data ++
  padLeft ' ' 30 "X".data ++ padLeft ' ' 30 "Addr".data

/-- The same header content with the name written left-justified:
structurally valid, but not in the canonical right-justified form. -/
def exHeaderLineLeft : Str :=
  "01".data ++ ("John".data ++ List.replicate 24 ' ') ++ padLeft ' ' 30 "Doe".data ++
  padLeft ' ' 30 "X".data ++ padLeft ' ' 30 "Addr".data

def exTxLine1 : Str :=
  "02".data ++ "000001".data ++ "000000100.00".data ++ "USD".data ++ List.replicate 97 ' '

def exTxLineEUR : Str :=
  "02".data ++ "000002".data ++ "000000050.00".data ++ "EUR".data ++ List.replicate 97 ' '

/-- Footer consistent with one transaction of amount 100.00. -/
def exFooterLine : Str :=
  "03".data ++ "000001".data ++ "000000100.00".data ++ List.replicate 100 ' '

/-- Footer whose totals do not match the single 100.00 transaction. -/
def exFooterLineBad : Str :=
  "03".data ++ "000005".data ++ "000000003.00".data ++ List.replicate 100 ' '

def exLinesOK : List Str := [exHeaderLine, exTxLine1, exFooterLine]

def exLinesLeft : List Str := [exHeaderLineLeft, exTxLine1, exFooterLine]

def exLinesMismatch : List Str := [exHeaderLine, exTxLine1, exTxLineEUR, exFooterLine]

def exLinesBadFooter : List Str := [exHeaderLine, exTxLine1, exFooterLineBad]

/-- The session obtained by loading the valid inconsistent-footer file. -/
def exSessionBad : Session := (read_file true exLinesBadFooter freshSession).1

/-- The session obtained by loading the canonical consistent file. -/
def exSessionOK : Session := (read_file true exLinesOK freshSession).1

/-- A footer one transaction away from overflowing `total_counter`. -/
def exFooter999999 : Footer :=
  { total_counter := "999999".data, control_sum := "000000000.00".data
  , reserved := List.replicate 100 ' ' }

/-- An ordinary footer used by the `update_footer` witness. -/
def exFooterSmall : Footer :=
  { total_counter := "000001".data, control_sum := "000000100.00".data
  , reserved := List.replicate 100 ' ' }

/-! # Theorems -/

set_option maxRecDepth 16000

/-! ## Basic facts about padding, stripping and slicing -/

theorem padLeft_length (c : Char) (w : Nat) (s : Str) :
    (padLeft c w s).length = (w - s.length) + s.length := by
  simp [padLeft]

theorem le_length_padLeft (c : Char) (w : Nat) (s : Str) :
    w ≤ (padLeft c w s).length := by
  rw [padLeft_length]; omega

theorem padLeft_eq_self {w : Nat} {s : Str} (c : Char) (h : w ≤ s.length) :
    padLeft c w s = s := by
  simp [padLeft, Nat.sub_eq_zero_of_le h]

theorem dropWhile_eq_self_of_all {p : Char → Bool} {s : Str}
    (h : ∀ c ∈ s, p c = false) : s.dropWhile p = s := by
  cases s with
  | nil => rfl
  | cons a t => simp [List.dropWhile_cons, h a (by simp)]

theorem dropWhile_append_of_all {p : Char → Bool} {l₁ l₂ : Str}
    (h : ∀ c ∈ l₁, p c = true) : (l₁ ++ l₂).dropWhile p = l₂.dropWhile p := by
  induction l₁ with
  | nil => simp
  | cons a t ih =>
      simp only [List.cons_append, List.dropWhile_cons, h a (by simp)]
      exact ih (fun c hc => h c (by simp [hc]))

theorem pyStrip_eq_self_of_noSpace {s : Str} (h : ∀ c ∈ s, isPySpace c = false) :
    pyStrip s = s := by
  unfold pyStrip
  rw [dropWhile_eq_self_of_all h, dropWhile_eq_self_of_all, List.reverse_reverse]
  intro c hc
  exact h c (by simpa using hc)

theorem pyStrip_replicate_space_append (k : Nat) (s : Str) :
    pyStrip (List.replicate k ' ' ++ s) = pyStrip s := by
  unfold pyStrip
  rw [dropWhile_append_of_all]
  intro c hc
  rcases List.eq_of_mem_replicate hc with rfl
  rfl

theorem pyStrip_padLeft_space (w : Nat) (s : Str) :
    pyStrip (padLeft ' ' w s) = pyStrip s :=
  pyStrip_replicate_space_append _ s

theorem pySlice_append {a b c : Nat} (hab : a ≤ b) (hbc : b ≤ c) (s : Str) :
    pySlice a b s ++ pySlice b c s = pySlice a c s := by
  unfold pySlice
  have hd : List.drop b s = List.drop (b - a) (List.drop a s) := by
    rw [List.drop_drop]; congr 1; omega
  rw [hd, ← List.take_add]
  congr 1
  omega

theorem pySlice_zero_two (s : Str) : pySlice 0 2 s = s.take 2 := by
  simp [pySlice]

theorem rstripCRLF_prefix (l : Str) : ∃ t, l = rstripCRLF l ++ t := by
  refine ⟨(l.reverse.takeWhile (fun c => c == '\r' || c == '\n')).reverse, ?_⟩
  unfold rstripCRLF
  rw [← List.reverse_append, List.takeWhile_append_dropWhile, List.reverse_reverse]

theorem pySlice_of_append_right (a b : Nat) (c t : Str) (hb : b ≤ c.length) :
    pySlice a b (c ++ t) = pySlice a b c := by
  unfold pySlice
  rw [List.drop_append_eq_append_drop, List.take_append_eq_append_take]
  have h1 : (c.drop a).length = c.length - a := by simp
  have h2 : (b - a) - (c.drop a).length = 0 := by omega
  rw [h2, List.take_zero, List.append_nil]

theorem pySlice_rstripCRLF (a b : Nat) (l : Str) (hb : b ≤ (rstripCRLF l).length) :
    pySlice a b l = pySlice a b (rstripCRLF l) := by
  obtain ⟨t, ht⟩ := rstripCRLF_prefix l
  conv_lhs => rw [ht]
  exact pySlice_of_append_right a b _ t hb

theorem take_of_isPrefixOf {p l : Str} (h : p.isPrefixOf l = true) :
    l.take p.length = p := by
  obtain ⟨t, rfl⟩ := List.isPrefixOf_iff_prefix.mp h
  simp

theorem take_rstripCRLF (n : Nat) (l : Str) (hn : n ≤ (rstripCRLF l).length) :
    l.take n = (rstripCRLF l).take n := by
  obtain ⟨t, ht⟩ := rstripCRLF_prefix l
  conv_lhs => rw [ht]
  rw [List.take_append_eq_append_take]
  have : n - (rstripCRLF l).length = 0 := by omega
  rw [this, List.take_zero, List.append_nil]

/-! ## Digits, parsing round trips and decimal arithmetic -/

theorem digitChar_isDigit {d : Nat} (h : d < 10) : (digitChar d).isDigit = true := by
  interval_cases d <;> decide

theorem digitChar_toNat {d : Nat} (h : d < 10) : (digitChar d).toNat = 48 + d := by
  interval_cases d <;> decide

theorem isPySpace_of_isDigit {c : Char} (h : c.isDigit = true) : isPySpace c = false := by
  unfold isPySpace
  simp only [Bool.or_eq_false_iff, beq_eq_false_iff_ne, ne_eq]
  refine ⟨⟨⟨⟨⟨?_, ?_⟩, ?_⟩, ?_⟩, ?_⟩, ?_⟩ <;> (rintro rfl; exact absurd h (by decide))

theorem natDigitsFuel_ne_nil (fuel n : Nat) : natDigitsFuel (fuel + 1) n ≠ [] := by
  unfold natDigitsFuel
  split <;> simp

theorem natDigits_ne_nil (n : Nat) : natDigits n ≠ [] := natDigitsFuel_ne_nil n n

theorem natDigitChars_ne_nil (n : Nat) : natDigitChars n ≠ [] := by
  unfold natDigitChars
  simp [natDigits_ne_nil]

theorem natDigitsFuel_lt_ten (fuel : Nat) :
    ∀ n, ∀ d ∈ natDigitsFuel fuel n, d < 10 := by
  induction fuel with
  | zero => intro n d hd; simp [natDigitsFuel] at hd
  | succ f ih =>
      intro n d hd
      unfold natDigitsFuel at hd
      split at hd
      · next h => rw [List.mem_singleton] at hd; omega
      · rw [List.mem_append] at hd
        rcases hd with hd | hd
        · exact ih _ d hd
        · rw [List.mem_singleton] at hd
          subst hd
          exact Nat.mod_lt _ (by omega)

theorem natDigits_lt_ten (n : Nat) : ∀ d ∈ natDigits n, d < 10 :=
  natDigitsFuel_lt_ten (n + 1) n

theorem digitsNatVal_append_singleton (l : List Nat) (d : Nat) :
    digitsNatVal (l ++ [d]) = digitsNatVal l * 10 + d := by
  simp [digitsNatVal, List.foldl_append]

theorem natDigitsFuel_val (fuel : Nat) :
    ∀ n, n ≤ fuel → digitsNatVal (natDigitsFuel (fuel + 1) n) = n := by
  induction fuel with
  | zero =>
      intro n hn
      interval_cases n
      rfl
  | succ f ih =>
      intro n hn
      unfold natDigitsFuel
      split
      · next h => simp [digitsNatVal]
      · next h =>
          rw [digitsNatVal_append_singleton, ih (n / 10) (by omega)]
          omega

theorem natDigits_val (n : Nat) : digitsNatVal (natDigits n) = n :=
  natDigitsFuel_val n n le_rfl

theorem foldl_digits_aux (ds : List Nat) (h : ∀ d ∈ ds, d < 10) :
    ∀ a : Nat, (ds.map digitChar).foldl (fun x c => x * 10 + (c.toNat - 48)) a
      = ds.foldl (fun x d => x * 10 + d) a := by
  induction ds with
  | nil => intro a; rfl
  | cons d t ih =>
      intro a
      simp only [List.map_cons, List.foldl_cons]
      rw [digitChar_toNat (h d (by simp))]
      have hd : a * 10 + (48 + d - 48) = a * 10 + d := by omega
      rw [hd]
      exact ih (fun x hx => h x (by simp [hx])) _

theorem digitsVal_natDigitChars (n : Nat) : digitsVal (natDigitChars n) = n := by
  have h := foldl_digits_aux (natDigits n) (natDigits_lt_ten n) 0
  unfold natDigitChars digitsVal
  rw [h]
  exact natDigits_val n

theorem allDigits_natDigitChars (n : Nat) : allDigits (natDigitChars n) = true := by
  unfold allDigits natDigitChars
  rw [List.all_eq_true]
  intro c hc
  rw [List.mem_map] at hc
  obtain ⟨d, hd, rfl⟩ := hc
  exact digitChar_isDigit (natDigits_lt_ten n d hd)

theorem allDigits_replicate_zero_append (k : Nat) (s : Str) :
    allDigits (List.replicate k '0' ++ s) = allDigits s := by
  unfold allDigits
  rw [List.all_append]
  have h : (List.replicate k '0').all Char.isDigit = true := by
    rw [List.all_eq_true]
    intro c hc
    rcases List.eq_of_mem_replicate hc with rfl
    rfl
  rw [h, Bool.true_and]

theorem digitsVal_replicate_zero_append (k : Nat) (s : Str) :
    digitsVal (List.replicate k '0' ++ s) = digitsVal s := by
  unfold digitsVal
  rw [List.foldl_append]
  congr 1
  induction k with
  | zero => rfl
  | succ m ih =>
      rw [List.replicate_succ, List.foldl_cons]
      have h0 : (0 : Nat) * 10 + ('0'.toNat - 48) = 0 := by decide
      rw [h0]
      exact ih

theorem parseNatDigits_padded (k n : Nat) :
    parseNatDigits (List.replicate k '0' ++ natDigitChars n) = some n := by
  unfold parseNatDigits
  rw [allDigits_replicate_zero_append, allDigits_natDigitChars]
  have hne : (List.replicate k '0' ++ natDigitChars n).isEmpty = false := by
    rw [List.isEmpty_eq_false_iff_exists_mem]
    obtain ⟨c, hc⟩ := List.exists_mem_of_ne_nil _ (natDigitChars_ne_nil n)
    exact ⟨c, by simp [hc]⟩
  rw [hne]
  simp [digitsVal_replicate_zero_append, digitsVal_natDigitChars]

theorem noSpace_of_allDigits {s : Str} (h : allDigits s = true) :
    ∀ c ∈ s, isPySpace c = false :=
  fun c hc => isPySpace_of_isDigit (List.all_eq_true.mp h c hc)

theorem pow10_pos (n : Nat) : 0 < pow10 n := by
  induction n with
  | zero => decide
  | succ m ih => rw [pow10]; omega

theorem pow10_add (m n : Nat) : pow10 (m + n) = pow10 m * pow10 n := by
  induction m with
  | zero => simp [pow10]
  | succ k ih =>
      have h : k + 1 + n = (k + n) + 1 := by omega
      rw [h, pow10, pow10, ih]
      ring

theorem roundHalfEvenDiv_mul_cancel (k m : Int) (hm : 0 < m) :
    roundHalfEvenDiv (k * m) m = k := by
  have h1 : Int.fdiv (k * m) m = k := Int.mul_fdiv_cancel k (ne_of_gt hm)
  simp only [roundHalfEvenDiv, h1]
  have h2 : k * m - k * m = 0 := by ring
  rw [h2]
  simp [hm]

theorem Dec.cents_add {a b : Dec} (ha : a.exp ≤ 2) (hb : b.exp ≤ 2) :
    (a.add b).cents = a.cents + b.cents := by
  unfold Dec.add Dec.cents
  dsimp only
  by_cases he : a.exp + b.exp ≤ 2
  · rw [if_pos he, if_pos ha, if_pos hb]
    have h1 : 2 - a.exp = b.exp + (2 - (a.exp + b.exp)) := by omega
    have h2 : 2 - b.exp = a.exp + (2 - (a.exp + b.exp)) := by omega
    calc (a.num * pow10 b.exp + b.num * pow10 a.exp) * pow10 (2 - (a.exp + b.exp))
        = a.num * (pow10 b.exp * pow10 (2 - (a.exp + b.exp)))
          + b.num * (pow10 a.exp * pow10 (2 - (a.exp + b.exp))) := by ring
      _ = a.num * pow10 (2 - a.exp) + b.num * pow10 (2 - b.exp) := by
          rw [← pow10_add, ← pow10_add, ← h1, ← h2]
  · rw [if_neg he, if_pos ha, if_pos hb]
    have hfact : a.num * pow10 b.exp + b.num * pow10 a.exp
        = (a.num * pow10 (2 - a.exp) + b.num * pow10 (2 - b.exp)) * pow10 (a.exp + b.exp - 2) := by
      have h1 : b.exp = (2 - a.exp) + (a.exp + b.exp - 2) := by omega
      have h2 : a.exp = (2 - b.exp) + (a.exp + b.exp - 2) := by omega
      calc a.num * pow10 b.exp + b.num * pow10 a.exp
          = a.num * pow10 ((2 - a.exp) + (a.exp + b.exp - 2))
            + b.num * pow10 ((2 - b.exp) + (a.exp + b.exp - 2)) := by rw [← h1, ← h2]
        _ = _ := by rw [pow10_add, pow10_add]; ring
    rw [hfact, roundHalfEvenDiv_mul_cancel _ _ (pow10_pos _)]

theorem Dec.cents_nonneg {a : Dec} (h : 0 ≤ a.num) (he : a.exp ≤ 2) : 0 ≤ a.cents := by
  unfold Dec.cents
  rw [if_pos he]
  exact mul_nonneg h (le_of_lt (pow10_pos _))

theorem parseIntStr_formatIntPadded (m : Int) (w : Nat) :
    parseIntStr (formatIntPadded m w) = some m := by
  by_cases hm : m < 0
  · have hdig : allDigits (padLeft '0' (w - 1) (natDigitChars m.natAbs)) = true := by
      unfold padLeft
      rw [allDigits_replicate_zero_append]
      exact allDigits_natDigitChars _
    have hnos : ∀ c ∈ ('-' :: padLeft '0' (w - 1) (natDigitChars m.natAbs)), isPySpace c = false := by
      intro c hc
      rcases List.mem_cons.mp hc with rfl | hc
      · rfl
      · exact noSpace_of_allDigits hdig c hc
    have hstrip : pyStrip (formatIntPadded m w) = '-' :: padLeft '0' (w - 1) (natDigitChars m.natAbs) := by
      unfold formatIntPadded
      rw [if_pos hm]
      exact pyStrip_eq_self_of_noSpace hnos
    unfold parseIntStr
    rw [hstrip]
    show (parseNatDigits (padLeft '0' (w - 1) (natDigitChars m.natAbs))).map (fun n => -(n : Int)) = some m
    unfold padLeft
    rw [parseNatDigits_padded]
    simp
    rw [abs_of_neg hm]
    ring
  · have hdig : allDigits (padLeft '0' w (natDigitChars m.natAbs)) = true := by
      unfold padLeft
      rw [allDigits_replicate_zero_append]
      exact allDigits_natDigitChars _
    have hstrip : pyStrip (formatIntPadded m w) = padLeft '0' w (natDigitChars m.natAbs) := by
      unfold formatIntPadded
      rw [if_neg hm]
      exact pyStrip_eq_self_of_noSpace (noSpace_of_allDigits hdig)
    unfold parseIntStr
    split
    · next r heq =>
        rw [hstrip] at heq
        have hmem : '-' ∈ padLeft '0' w (natDigitChars m.natAbs) := by rw [heq]; simp
        exact absurd (List.all_eq_true.mp hdig _ hmem) (by decide)
    · next r heq =>
        rw [hstrip] at heq
        have hmem : '+' ∈ padLeft '0' w (natDigitChars m.natAbs) := by rw [heq]; simp
        exact absurd (List.all_eq_true.mp hdig _ hmem) (by decide)
    · rw [hstrip]
      unfold padLeft
      rw [parseNatDigits_padded]
      simp
      omega

theorem takeWhile_append_of_all {p : Char → Bool} {l₁ l₂ : Str}
    (h : ∀ c ∈ l₁, p c = true) : (l₁ ++ l₂).takeWhile p = l₁ ++ l₂.takeWhile p := by
  induction l₁ with
  | nil => simp
  | cons a t ih =>
      simp only [List.cons_append, List.takeWhile_cons, h a (by simp)]
      rw [ih (fun c hc => h c (by simp [hc]))]
      simp

theorem contains_dot_eq_false_of_allDigits {s : Str} (h : allDigits s = true) :
    s.contains '.' = false := by
  rw [← Bool.not_eq_true, List.contains_eq_any_beq]
  simp only [List.any_eq_true, not_exists, not_and]
  intro c hc hbeq
  rw [beq_iff_eq] at hbeq
  subst hbeq
  exact absurd (List.all_eq_true.mp h _ hc) (by decide)

theorem ne_dot_of_isDigit {c : Char} (h : c.isDigit = true) : (c != '.') = true := by
  rw [bne_iff_ne, ne_eq]
  rintro rfl
  exact absurd h (by decide)

theorem splitDot_digits (ip fp : Str) (hipd : allDigits ip = true) (hfpd : allDigits fp = true) :
    splitDot (ip ++ '.' :: fp) = some (ip, some fp) := by
  unfold splitDot
  have hdrop : (ip ++ '.' :: fp).dropWhile (fun c => c != '.') = '.' :: fp := by
    rw [dropWhile_append_of_all (fun c hc => ne_dot_of_isDigit (List.all_eq_true.mp hipd c hc))]
    rw [List.dropWhile_cons]
    simp
  rw [hdrop]
  dsimp only
  rw [contains_dot_eq_false_of_allDigits hfpd]
  have htake : (ip ++ '.' :: fp).takeWhile (fun c => c != '.') = ip := by
    rw [takeWhile_append_of_all (fun c hc => ne_dot_of_isDigit (List.all_eq_true.mp hipd c hc))]
    rw [List.takeWhile_cons]
    simp
  rw [htake]
  simp

theorem parseFloatStr_digits (ip fp : Str) (hip : ip ≠ [])
    (hipd : allDigits ip = true) (hfpd : allDigits fp = true) :
    parseFloatStr (ip ++ '.' :: fp)
      = some { num := (digitsVal ip * 10 ^ fp.length + digitsVal fp : Nat), exp := fp.length } := by
  have hall : ∀ c ∈ ip ++ '.' :: fp, isPySpace c = false := by
    intro c hc
    rw [List.mem_append] at hc
    rcases hc with hc | hc
    · exact isPySpace_of_isDigit (List.all_eq_true.mp hipd c hc)
    · rcases List.mem_cons.mp hc with rfl | hc
      · rfl
      · exact isPySpace_of_isDigit (List.all_eq_true.mp hfpd c hc)
  have hstrip : pyStrip (ip ++ '.' :: fp) = ip ++ '.' :: fp := pyStrip_eq_self_of_noSpace hall
  have huns : parseUnsignedFloat (ip ++ '.' :: fp)
      = some (digitsVal ip * 10 ^ fp.length + digitsVal fp, fp.length) := by
    unfold parseUnsignedFloat
    rw [splitDot_digits ip fp hipd hfpd]
    have hne : ip.isEmpty = false := by
      cases ip with
      | nil => exact absurd rfl hip
      | cons a t => rfl
    dsimp only
    simp [hne, hipd, hfpd]
  unfold parseFloatStr
  split
  · next r heq =>
      rw [hstrip] at heq
      cases ip with
      | nil => exact absurd rfl hip
      | cons a t =>
          rw [List.cons_append] at heq
          injection heq with h1 h2
          subst h1
          exact absurd (List.all_eq_true.mp hipd '-' (by simp)) (by decide)
  · next r heq =>
      rw [hstrip] at heq
      cases ip with
      | nil => exact absurd rfl hip
      | cons a t =>
          rw [List.cons_append] at heq
          injection heq with h1 h2
          subst h1
          exact absurd (List.all_eq_true.mp hipd '+' (by simp)) (by decide)
  · rw [hstrip, huns]
    rfl

theorem natDigitsFuel_single (fuel n : Nat) (h : n < 10) : natDigitsFuel (fuel + 1) n = [n] := by
  unfold natDigitsFuel
  rw [if_pos h]

theorem natDigitChars_length_le_two {r : Nat} (h : r < 100) : (natDigitChars r).length ≤ 2 := by
  unfold natDigitChars natDigits
  rw [List.length_map]
  by_cases h10 : r < 10
  · rw [natDigitsFuel_single _ _ h10]
    simp
  · have e1 : natDigitsFuel (r + 1) r
        = if r < 10 then [r] else natDigitsFuel r (r / 10) ++ [r % 10] := rfl
    have e2 : natDigitsFuel r (r / 10) = [r / 10] := by
      have hr : r = (r - 1) + 1 := by omega
      rw [hr]
      exact natDigitsFuel_single _ _ (by omega)
    rw [e1, if_neg h10, e2]
    simp

theorem padLeft_zero (c : Char) (s : Str) : padLeft c 0 s = s := by
  simp [padLeft]

theorem format2f_nonneg (D : Dec) (hc : 0 ≤ D.cents) :
    format2f D = natDigitChars (D.cents.natAbs / 100) ++ '.' :: padLeft '0' 2 (natDigitChars (D.cents.natAbs % 100)) := by
  unfold format2f formatFloatPadded
  dsimp only
  rw [if_neg (by omega), padLeft_zero]

theorem parseFloatStr_padLeft_format2f (D : Dec) (hc : 0 ≤ D.cents) (w : Nat) :
    parseFloatStr (padLeft '0' w (format2f D)) = some { num := D.cents, exp := 2 } := by
  have hB : (natDigitChars (D.cents.natAbs % 100)).length ≤ 2 :=
    natDigitChars_length_le_two (Nat.mod_lt _ (by omega))
  rw [format2f_nonneg D hc]
  set A := natDigitChars (D.cents.natAbs / 100) with hA
  set F := padLeft '0' 2 (natDigitChars (D.cents.natAbs % 100)) with hF
  have hgroup : padLeft '0' w (A ++ '.' :: F)
      = (List.replicate (w - (A ++ '.' :: F).length) '0' ++ A) ++ '.' :: F := by
    show List.replicate (w - (A ++ '.' :: F).length) '0' ++ (A ++ '.' :: F) = _
    rw [List.append_assoc]
  have hipne : List.replicate (w - (A ++ '.' :: F).length) '0' ++ A ≠ [] := by
    intro hnil
    rcases List.append_eq_nil.mp hnil with ⟨_, hA0⟩
    exact natDigitChars_ne_nil _ hA0
  have hipd : allDigits (List.replicate (w - (A ++ '.' :: F).length) '0' ++ A) = true := by
    rw [allDigits_replicate_zero_append, hA]
    exact allDigits_natDigitChars _
  have hfpd : allDigits F = true := by
    rw [hF]
    show allDigits (List.replicate _ '0' ++ _) = true
    rw [allDigits_replicate_zero_append]
    exact allDigits_natDigitChars _
  rw [hgroup, parseFloatStr_digits _ _ hipne hipd hfpd]
  have hFlen : F.length = 2 := by
    rw [hF, padLeft_length]
    omega
  have hvalA : digitsVal (List.replicate (w - (A ++ '.' :: F).length) '0' ++ A) = D.cents.natAbs / 100 := by
    rw [digitsVal_replicate_zero_append, hA, digitsVal_natDigitChars]
  have hvalF : digitsVal F = D.cents.natAbs % 100 := by
    rw [hF]
    show digitsVal (List.replicate _ '0' ++ _) = _
    rw [digitsVal_replicate_zero_append, digitsVal_natDigitChars]
  rw [hvalA, hvalF, hFlen]
  have hval : (D.cents.natAbs / 100) * 10 ^ 2 + D.cents.natAbs % 100 = D.cents.natAbs := by
    have h100 : (10 : Nat) ^ 2 = 100 := by norm_num
    rw [h100]
    omega
  rw [hval]
  have : ((D.cents.natAbs : Int)) = D.cents := by omega
  rw [this]

theorem validate_fixed_width_eq (value : PyVal) (width : Nat) :
    validate_fixed_width value width
      = if (pyFormatValue value width).length > width
        then .error (.dataValidationError "Formatted value exceeds maximum width")
        else .ok (pyFormatValue value width) := rfl

theorem validate_field_value_str_ok {w : Nat} {s v : Str}
    (h : validate_field_value .tStr w (.vStr s) = .ok v) :
    v = padLeft ' ' w s ∧ s.length ≤ w := by
  unfold validate_field_value at h
  simp only [validate_type] at h
  rw [show (do
        let _ ← (Except.ok (PyVal.vStr s) : Except PyError PyVal)
        validate_fixed_width (.vStr s) w) = validate_fixed_width (.vStr s) w from rfl] at h
  rw [validate_fixed_width_eq] at h
  by_cases hlen : (pyFormatValue (.vStr s) w).length > w
  · rw [if_pos hlen] at h
    exact absurd h (by simp)
  · rw [if_neg hlen] at h
    have hv : v = pyFormatValue (.vStr s) w := by
      injection h with h'
      exact h'.symm
    constructor
    · exact hv
    · have := padLeft_length ' ' w s
      simp only [pyFormatValue] at hlen
      omega

theorem validate_type_float_str (s : Str) :
    validate_type (.vStr s) .tFloat
      = match parseFloatStr s with
        | none => .error (.dataValidationError "Expected a float")
        | some d =>
            if d.num < 0 then .error (.dataValidationError "The numbers cannot be negative")
            else .ok (.vStr s) := rfl

theorem validate_type_int_str (s : Str) :
    validate_type (.vStr s) .tInt
      = match parseIntStr s with
        | none => .error (.dataValidationError "Expected an int")
        | some n =>
            if n < 0 then .error (.dataValidationError "The numbers cannot be negative")
            else .ok (.vStr s) := rfl

theorem validate_field_value_float_str_ok {w : Nat} {s v : Str}
    (h : validate_field_value .tFloat w (.vStr s) = .ok v) :
    (∃ d, parseFloatStr s = some d ∧ 0 ≤ d.num) ∧ v = padLeft ' ' w s ∧ s.length ≤ w := by
  unfold validate_field_value at h
  rw [validate_type_float_str s] at h
  cases hp : parseFloatStr s with
  | none =>
      rw [hp] at h
      dsimp only at h
      exact nomatch h
  | some d =>
      rw [hp] at h
      dsimp only at h
      by_cases hd : d.num < 0
      · rw [if_pos hd] at h
        exact nomatch h
      · rw [if_neg hd] at h
        have h2 : validate_fixed_width (.vStr s) w = .ok v := h
        rw [validate_fixed_width_eq] at h2
        by_cases hlen : (pyFormatValue (.vStr s) w).length > w
        · rw [if_pos hlen] at h2
          exact nomatch h2
        · rw [if_neg hlen] at h2
          have hv : v = pyFormatValue (.vStr s) w := by
            injection h2 with h'
            exact h'.symm
          refine ⟨⟨d, rfl, by omega⟩, hv, ?_⟩
          have := padLeft_length ' ' w s
          simp only [pyFormatValue] at hlen
          omega

theorem validate_field_value_int_str_ok {w : Nat} {s v : Str}
    (h : validate_field_value .tInt w (.vStr s) = .ok v) :
    (∃ n, parseIntStr s = some n ∧ 0 ≤ n) ∧ v = padLeft ' ' w s ∧ s.length ≤ w := by
  unfold validate_field_value at h
  rw [validate_type_int_str s] at h
  cases hp : parseIntStr s with
  | none =>
      rw [hp] at h
      dsimp only at h
      exact nomatch h
  | some n =>
      rw [hp] at h
      dsimp only at h
      by_cases hd : n < 0
      · rw [if_pos hd] at h
        exact nomatch h
      · rw [if_neg hd] at h
        have h2 : validate_fixed_width (.vStr s) w = .ok v := h
        rw [validate_fixed_width_eq] at h2
        by_cases hlen : (pyFormatValue (.vStr s) w).length > w
        · rw [if_pos hlen] at h2
          exact nomatch h2
        · rw [if_neg hlen] at h2
          have hv : v = pyFormatValue (.vStr s) w := by
            injection h2 with h'
            exact h'.symm
          refine ⟨⟨n, rfl, by omega⟩, hv, ?_⟩
          have := padLeft_length ' ' w s
          simp only [pyFormatValue] at hlen
          omega

theorem create_header_ok_inv {a b c d : Str} {h : Header}
    (hok : create_header (.vStr a) (.vStr b) (.vStr c) (.vStr d) = .ok h) :
    h = { name := padLeft ' ' 28 a, surname := padLeft ' ' 30 b
        , patronymic := padLeft ' ' 30 c, address := padLeft ' ' 30 d } := by
  unfold create_header at hok
  cases h1 : validate_field_value .tStr 28 (.vStr a) with
  | error e => rw [h1] at hok; exact nomatch hok
  | ok v1 =>
  rw [h1] at hok
  cases h2 : validate_field_value .tStr 30 (.vStr b) with
  | error e => rw [h2] at hok; exact nomatch hok
  | ok v2 =>
  rw [h2] at hok
  cases h3 : validate_field_value .tStr 30 (.vStr c) with
  | error e => rw [h3] at hok; exact nomatch hok
  | ok v3 =>
  rw [h3] at hok
  cases h4 : validate_field_value .tStr 30 (.vStr d) with
  | error e => rw [h4] at hok; exact nomatch hok
  | ok v4 =>
  rw [h4] at hok
  have hk : (Except.ok (Header.mk v1 v2 v3 v4) : Except PyError Header) = Except.ok h := hok
  injection hk with hk'
  rw [← hk', (validate_field_value_str_ok h1).1, (validate_field_value_str_ok h2).1,
    (validate_field_value_str_ok h3).1, (validate_field_value_str_ok h4).1]

theorem create_transaction_ok_inv {a b c d : Str} {t : Transaction}
    (hok : create_transaction (.vStr a) (.vStr b) (.vStr c) (.vStr d) = .ok t) :
    t = { counter := padLeft ' ' 6 a, amount := padLeft ' ' 12 b
        , currency := padLeft ' ' 3 c, reserved := padLeft ' ' 97 d } := by
  unfold create_transaction at hok
  cases h1 : validate_field_value .tStr 6 (.vStr a) with
  | error e => rw [h1] at hok; exact nomatch hok
  | ok v1 =>
  rw [h1] at hok
  cases h2 : validate_field_value .tFloat 12 (.vStr b) with
  | error e => rw [h2] at hok; exact nomatch hok
  | ok v2 =>
  rw [h2] at hok
  cases h3 : validate_field_value .tStr 3 (.vStr c) with
  | error e => rw [h3] at hok; exact nomatch hok
  | ok v3 =>
  rw [h3] at hok
  cases h4 : validate_field_value .tStr 97 (.vStr d) with
  | error e => rw [h4] at hok; exact nomatch hok
  | ok v4 =>
  rw [h4] at hok
  have hk : (Except.ok (Transaction.mk v1 v2 v3 v4) : Except PyError Transaction) = Except.ok t := hok
  injection hk with hk'
  rw [← hk', (validate_field_value_str_ok h1).1, (validate_field_value_float_str_ok h2).2.1,
    (validate_field_value_str_ok h3).1, (validate_field_value_str_ok h4).1]

theorem create_footer_ok_inv {a b c : Str} {f : Footer}
    (hok : create_footer (.vStr a) (.vStr b) (.vStr c) = .ok f) :
    f = { total_counter := padLeft ' ' 6 a, control_sum := padLeft ' ' 12 b
        , reserved := padLeft ' ' 100 c } := by
  unfold create_footer at hok
  cases h1 : validate_field_value .tInt 6 (.vStr a) with
  | error e => rw [h1] at hok; exact nomatch hok
  | ok v1 =>
  rw [h1] at hok
  cases h2 : validate_field_value .tFloat 12 (.vStr b) with
  | error e => rw [h2] at hok; exact nomatch hok
  | ok v2 =>
  rw [h2] at hok
  cases h3 : validate_field_value .tStr 100 (.vStr c) with
  | error e => rw [h3] at hok; exact nomatch hok
  | ok v3 =>
  rw [h3] at hok
  have hk : (Except.ok (Footer.mk v1 v2 v3) : Except PyError Footer) = Except.ok f := hok
  injection hk with hk'
  rw [← hk', (validate_field_value_int_str_ok h1).2.1, (validate_field_value_float_str_ok h2).2.1,
    (validate_field_value_str_ok h3).1]

theorem validate_file_structure_ok_inv {lines : List Str}
    (h : validate_file_structure lines = .ok ()) :
    3 ≤ lines.length ∧
    (∀ l ∈ lines, (rstripCRLF l).length = 120) ∧
    "01".data.isPrefixOf (lines.headD []) = true ∧
    "03".data.isPrefixOf (lines.getLastD []) = true ∧
    (∀ l ∈ (lines.drop 1).dropLast, "02".data.isPrefixOf l = true) ∧
    ((lines.drop 1).dropLast).length ≤ 20000 := by
  unfold validate_file_structure at h
  by_cases h1 : lines.length < 3
  · rw [if_pos h1] at h
    exact nomatch h
  · rw [if_neg h1] at h
    by_cases h2 : lines.any (fun l => (rstripCRLF l).length != 120) = true
    · rw [if_pos h2] at h
      exact nomatch h
    · rw [if_neg h2] at h
      by_cases h3 : ("01".data.isPrefixOf (lines.headD []) && "03".data.isPrefixOf (lines.getLastD [])) = true
      · have h3f : (!("01".data.isPrefixOf (lines.headD []) && "03".data.isPrefixOf (lines.getLastD []))) = false := by
          rw [h3]
          rfl
        rw [h3f] at h
        simp only [Bool.false_eq_true, if_false] at h
        by_cases h4 : ((lines.drop 1).dropLast).any (fun l => !("02".data.isPrefixOf l)) = true
        · rw [if_pos h4] at h
          exact nomatch h
        · rw [if_neg h4] at h
          by_cases h5 : (decide (1 ≤ ((lines.drop 1).dropLast).length) && decide (((lines.drop 1).dropLast).length ≤ 20000)) = true
          · rw [Bool.and_eq_true] at h3
            rw [Bool.and_eq_true, decide_eq_true_eq, decide_eq_true_eq] at h5
            refine ⟨by omega, ?_, h3.1, h3.2, ?_, h5.2⟩
            · intro l hl
              rw [Bool.not_eq_true, List.any_eq_false] at h2
              have := h2 l hl
              simpa using this
            · intro l hl
              rw [Bool.not_eq_true, List.any_eq_false] at h4
              have := h4 l hl
              simpa using this
          · have h5t : (!(decide (1 ≤ ((lines.drop 1).dropLast).length) && decide (((lines.drop 1).dropLast).length ≤ 20000))) = true := by
              rw [Bool.eq_false_iff.mpr h5]
              rfl
            rw [h5t, if_pos rfl] at h
            exact nomatch h
      · have h3t : (!("01".data.isPrefixOf (lines.headD []) && "03".data.isPrefixOf (lines.getLastD []))) = true := by
          rw [Bool.eq_false_iff.mpr h3]
          rfl
        rw [h3t, if_pos rfl] at h
        exact nomatch h

theorem load_transactions_fields (cur : Str) (lns : List Str) (s : Session) :
    ((load_transactions cur lns s).1.header = s.header) ∧
    ((load_transactions cur lns s).1.footer = s.footer) ∧
    ((load_transactions cur lns s).1.is_loaded = s.is_loaded) ∧
    ((load_transactions cur lns s).1.currency = s.currency) := by
  induction lns generalizing s with
  | nil => simp [load_transactions]
  | cons l rest ih =>
      unfold load_transactions
      split
      · simp
      · split
        · simp
        · split
          · simp
          · exact ih _

theorem load_transactions_ok_inv (cur : Str) :
    ∀ (lns : List Str) (s s' : Session),
    load_transactions cur lns s = (s', none) →
    ∃ ts, s' = { s with transactions := s.transactions ++ ts } ∧ List.Forall₂ (txRel cur) lns ts := by
  intro lns
  induction lns with
  | nil =>
      intro s s' h
      unfold load_transactions at h
      rw [Prod.mk.injEq] at h
      exact ⟨[], by simp [h.1.symm], List.Forall₂.nil⟩
  | cons l rest ih =>
      intro s s' h
      unfold load_transactions at h
      cases hp : parse_transaction_data l with
      | error e =>
          rw [hp] at h
          rw [Prod.mk.injEq] at h
          exact absurd h.2 (by simp)
      | ok td =>
          rw [hp] at h
          dsimp only at h
          by_cases hc : td.currency ≠ cur
          · rw [if_pos hc] at h
            rw [Prod.mk.injEq] at h
            exact absurd h.2 (by simp)
          · rw [if_neg hc] at h
            rw [not_not] at hc
            cases hcr : create_transaction (.vStr td.counter) (.vStr td.amount) (.vStr td.currency) (.vStr td.reserved) with
            | error e =>
                rw [hcr] at h
                rw [Prod.mk.injEq] at h
                exact absurd h.2 (by simp)
            | ok t =>
                rw [hcr] at h
                dsimp only at h
                obtain ⟨ts, hs', hrel⟩ := ih _ _ h
                refine ⟨t :: ts, ?_, List.Forall₂.cons ⟨td, hp, hc, hcr⟩ hrel⟩
                rw [hs']
                simp

theorem load_transactions_ok_of (cur : Str) :
    ∀ (lns : List Str) (s : Session), (∀ l ∈ lns, txOk cur l) →
    ∃ ts, load_transactions cur lns s = ({ s with transactions := s.transactions ++ ts }, none) := by
  intro lns
  induction lns with
  | nil =>
      intro s _
      exact ⟨[], by simp [load_transactions]⟩
  | cons l rest ih =>
      intro s hall
      obtain ⟨td, t, hp, hc, hcr⟩ := hall l (by simp)
      unfold load_transactions
      rw [hp]
      dsimp only
      rw [if_neg (fun hne => hne hc), hcr]
      dsimp only
      obtain ⟨ts, hres⟩ := ih { s with transactions := s.transactions ++ [t] }
        (fun l' hl' => hall l' (by simp [hl']))
      refine ⟨t :: ts, ?_⟩
      rw [hres]
      simp

theorem read_file_ok_inv {fileExists : Bool} {lines : List Str} {s0 s' : Session}
    (h : read_file fileExists lines s0 = (s', none)) :
    ∃ l1 td1 hd h0 fd f0 ts,
      lines.get? 1 = some l1 ∧
      parse_transaction_data l1 = .ok td1 ∧
      td1.currency ∈ ALLOWED_CURRENCIES ∧
      validate_file_structure lines = .ok () ∧
      parse_header_data (lines.headD []) = .ok hd ∧
      create_header (.vStr hd.name) (.vStr hd.surname) (.vStr hd.patronymic) (.vStr hd.address) = .ok h0 ∧
      List.Forall₂ (txRel td1.currency) ((lines.drop 1).dropLast) ts ∧
      parse_footer_data (lines.getLastD []) = .ok fd ∧
      create_footer (.vStr fd.total_counter) (.vStr fd.control_sum) (.vStr fd.reserved) = .ok f0 ∧
      s' = { header := some h0
           , transactions := (if s0.is_loaded then [] else s0.transactions) ++ ts
           , footer := some f0, is_loaded := true, currency := td1.currency } := by
  unfold read_file at h
  cases fileExists with
  | false =>
      have h2 : ((if s0.is_loaded = true then freshSession else s0),
          some (PyError.fileNotFound "No file found at the specified path")) = (s', none) := h
      rw [Prod.mk.injEq] at h2
      exact absurd h2.2 (by simp)
  | true =>
      rw [if_neg (by decide)] at h
      dsimp only at h
      cases hl1 : lines.get? 1 with
      | none =>
          rw [hl1] at h
          dsimp only at h
          rw [Prod.mk.injEq] at h
          exact absurd h.2 (by simp)
      | some l1 =>
          rw [hl1] at h
          dsimp only at h
          cases hp1 : parse_transaction_data l1 with
          | error e =>
              rw [hp1] at h
              dsimp only at h
              rw [Prod.mk.injEq] at h
              exact absurd h.2 (by simp)
          | ok td1 =>
              rw [hp1] at h
              dsimp only at h
              by_cases hcur : td1.currency ∈ ALLOWED_CURRENCIES
              · rw [if_neg (fun hno => hno hcur)] at h
                cases hstr : validate_file_structure lines with
                | error e =>
                    rw [hstr] at h
                    dsimp only at h
                    rw [Prod.mk.injEq] at h
                    exact absurd h.2 (by simp)
                | ok u =>
                    rw [hstr] at h
                    dsimp only at h
                    cases hph : parse_header_data (lines.headD []) with
                    | error e =>
                        rw [hph] at h
                        dsimp only at h
                        rw [Prod.mk.injEq] at h
                        exact absurd h.2 (by simp)
                    | ok hd =>
                        rw [hph] at h
                        dsimp only at h
                        cases hch : create_header (.vStr hd.name) (.vStr hd.surname) (.vStr hd.patronymic) (.vStr hd.address) with
                        | error e =>
                            rw [hch] at h
                            dsimp only at h
                            rw [Prod.mk.injEq] at h
                            exact absurd h.2 (by simp)
                        | ok h0 =>
                            rw [hch] at h
                            dsimp only at h
                            rcases hload : load_transactions td1.currency ((lines.drop 1).dropLast)
                                { header := some h0
                                , transactions := (if s0.is_loaded then freshSession else s0).transactions
                                , footer := (if s0.is_loaded then freshSession else s0).footer
                                , is_loaded := (if s0.is_loaded then freshSession else s0).is_loaded
                                , currency := td1.currency } with ⟨s3, e3⟩
                            rw [hload] at h
                            cases e3 with
                            | some e =>
                                dsimp only at h
                                rw [Prod.mk.injEq] at h
                                exact absurd h.2 (by simp)
                            | none =>
                                dsimp only at h
                                cases hpf : parse_footer_data (lines.getLastD []) with
                                | error e =>
                                    rw [hpf] at h
                                    dsimp only at h
                                    rw [Prod.mk.injEq] at h
                                    exact absurd h.2 (by simp)
                                | ok fd =>
                                    rw [hpf] at h
                                    dsimp only at h
                                    cases hcf : create_footer (.vStr fd.total_counter) (.vStr fd.control_sum) (.vStr fd.reserved) with
                                    | error e =>
                                        rw [hcf] at h
                                        dsimp only at h
                                        rw [Prod.mk.injEq] at h
                                        exact absurd h.2 (by simp)
                                    | ok f0 =>
                                        rw [hcf] at h
                                        dsimp only at h
                                        rw [Prod.mk.injEq] at h
                                        obtain ⟨ts, hs3, hrel⟩ := load_transactions_ok_inv _ _ _ _ hload
                                        refine ⟨l1, td1, hd, h0, fd, f0, ts, rfl, hp1, hcur, rfl, rfl, hch, hrel, rfl, hcf, ?_⟩
                                        rw [← h.1, hs3]
                                        cases hld : s0.is_loaded <;> simp [hld, freshSession]
              · rw [if_pos hcur] at h
                rw [Prod.mk.injEq] at h
                exact absurd h.2 (by simp)

theorem baseState_not_loaded (s0 : Session) :
    (if s0.is_loaded = true then freshSession else s0).is_loaded = false := by
  cases h : s0.is_loaded with
  | true => simp [freshSession]
  | false => simp [h]

theorem read_file_ok_of {lines : List Str} (s0 : Session) {l1 : Str} {td1 : TransactionData}
    (hl1 : lines.get? 1 = some l1)
    (hp1 : parse_transaction_data l1 = .ok td1)
    (hcur : td1.currency ∈ ALLOWED_CURRENCIES)
    (hstr : validate_file_structure lines = .ok ())
    (hhd : ∃ hd h0, parse_header_data (lines.headD []) = .ok hd ∧
        create_header (.vStr hd.name) (.vStr hd.surname) (.vStr hd.patronymic) (.vStr hd.address) = .ok h0)
    (htx : ∀ l ∈ (lines.drop 1).dropLast, txOk td1.currency l)
    (hft : ∃ fd f0, parse_footer_data (lines.getLastD []) = .ok fd ∧
        create_footer (.vStr fd.total_counter) (.vStr fd.control_sum) (.vStr fd.reserved) = .ok f0) :
    (read_file true lines s0).2 = none ∧ (read_file true lines s0).1.is_loaded = true := by
  obtain ⟨hd, h0, hph, hch⟩ := hhd
  obtain ⟨fd, f0, hpf, hcf⟩ := hft
  unfold read_file
  rw [if_neg (by decide)]
  dsimp only
  rw [hl1]
  dsimp only
  rw [hp1]
  dsimp only
  rw [if_neg (fun hno => hno hcur), hstr]
  dsimp only
  rw [hph]
  dsimp only
  rw [hch]
  dsimp only
  obtain ⟨ts, hload⟩ := load_transactions_ok_of td1.currency ((lines.drop 1).dropLast)
    { header := some h0
    , transactions := (if s0.is_loaded = true then freshSession else s0).transactions
    , footer := (if s0.is_loaded = true then freshSession else s0).footer
    , is_loaded := (if s0.is_loaded = true then freshSession else s0).is_loaded
    , currency := td1.currency } htx
  rw [hload]
  dsimp only
  rw [hpf]
  dsimp only
  rw [hcf]
  dsimp only
  exact ⟨rfl, rfl⟩

theorem read_file_error_state (fileExists : Bool) (lines : List Str) (s0 : Session) :
    (read_file fileExists lines s0).2 = none ∨ (read_file fileExists lines s0).1.is_loaded = false := by
  unfold read_file
  cases fileExists with
  | false =>
      right
      exact baseState_not_loaded s0
  | true =>
      rw [if_neg (by decide)]
      dsimp only
      cases hl1 : lines.get? 1 with
      | none =>
          right
          exact baseState_not_loaded s0
      | some l1 =>
          dsimp only
          cases hp1 : parse_transaction_data l1 with
          | error e =>
              right
              exact baseState_not_loaded s0
          | ok td1 =>
              dsimp only
              by_cases hcur : td1.currency ∈ ALLOWED_CURRENCIES
              · rw [if_neg (fun hno => hno hcur)]
                cases hstr : validate_file_structure lines with
                | error e =>
                    right
                    exact baseState_not_loaded s0
                | ok u =>
                    dsimp only
                    cases hph : parse_header_data (lines.headD []) with
                    | error e =>
                        right
                        exact baseState_not_loaded s0
                    | ok hd =>
                        dsimp only
                        cases hch : create_header (.vStr hd.name) (.vStr hd.surname) (.vStr hd.patronymic) (.vStr hd.address) with
                        | error e =>
                            right
                            exact baseState_not_loaded s0
                        | ok h0 =>
                            dsimp only
                            rcases hload : load_transactions td1.currency ((lines.drop 1).dropLast)
                                { header := some h0
                                , transactions := (if s0.is_loaded = true then freshSession else s0).transactions
                                , footer := (if s0.is_loaded = true then freshSession else s0).footer
                                , is_loaded := (if s0.is_loaded = true then freshSession else s0).is_loaded
                                , currency := td1.currency } with ⟨s3, e3⟩
                            have hs3load : s3.is_loaded = false := by
                              have hfst : (load_transactions td1.currency ((lines.drop 1).dropLast)
                                  { header := some h0
                                  , transactions := (if s0.is_loaded = true then freshSession else s0).transactions
                                  , footer := (if s0.is_loaded = true then freshSession else s0).footer
                                  , is_loaded := (if s0.is_loaded = true then freshSession else s0).is_loaded
                                  , currency := td1.currency }).1.is_loaded = (if s0.is_loaded = true then freshSession else s0).is_loaded :=
                                (load_transactions_fields _ _ _).2.2.1
                              rw [hload] at hfst
                              rw [hfst]
                              exact baseState_not_loaded s0
                            cases e3 with
                            | some e =>
                                right
                                dsimp only
                                exact hs3load
                            | none =>
                                dsimp only
                                cases hpf : parse_footer_data (lines.getLastD []) with
                                | error e =>
                                    right
                                    exact hs3load
                                | ok fd =>
                                    dsimp only
                                    cases hcf : create_footer (.vStr fd.total_counter) (.vStr fd.control_sum) (.vStr fd.reserved) with
                                    | error e =>
                                        right
                                        exact hs3load
                                    | ok f0 =>
                                        left
                                        rfl
              · rw [if_pos hcur]
                right
                exact baseState_not_loaded s0

theorem forall₂_mem_left {R : Str → Transaction → Prop} :
    ∀ {ls : List Str} {ts : List Transaction}, List.Forall₂ R ls ts →
    ∀ l ∈ ls, ∃ t, R l t := by
  intro ls ts h
  induction h with
  | nil => intro l hl; simp at hl
  | cons hR hrest ih =>
      intro l hl
      rcases List.mem_cons.mp hl with rfl | hl
      · exact ⟨_, hR⟩
      · exact ih l hl

/-- C4 (corrected): `validate_file_structure` on a single line of
length 119 fails with the minimum-line-count violation message, not the
line-length message: the three-line minimum is checked before any line
length. -/
theorem structure_one_line_count_error (l : Str) (h : l.length = 119) :
    validate_file_structure [l] = .error (.dataValidationError msgCount) ∧ msgCount ≠ msgLength := by
  constructor
  · unfold validate_file_structure
    rw [if_pos (by simp)]
  · decide

theorem structure_one_line_count_error_witness :
    validate_file_structure [List.replicate 119 'A'] = .error (.dataValidationError msgCount) ∧
    msgCount ≠ msgLength :=
  structure_one_line_count_error (List.replicate 119 'A') (by simp)

/-- C4 counterexample: on one line of length 119 the result is the
line-count error, and in particular not the line-length error the claim
asserts. -/
theorem structure_one_line_counterexample :
    validate_file_structure [List.replicate 119 'A'] = .error (.dataValidationError msgCount) ∧
    ¬ validate_file_structure [List.replicate 119 'A'] = .error (.dataValidationError msgLength) := by
  constructor
  · rfl
  · intro hbad
    rw [show validate_file_structure [List.replicate 119 'A']
        = .error (.dataValidationError msgCount) from rfl] at hbad
    injection hbad with h1
    injection h1 with h2
    exact absurd h2 (by decide)

/-- C6 (confirmed): `validate_fixed_width` fails exactly when the
formatted value exceeds the width (it never truncates), and otherwise
returns the formatted value, which has exactly `width` characters;
for a string input the output is the input padded with leading
spaces. -/
theorem validate_fixed_width_spec (v : PyVal) (w : Nat) :
    ((pyFormatValue v w).length > w ∧
      validate_fixed_width v w = .error (.dataValidationError "Formatted value exceeds maximum width")) ∨
    (validate_fixed_width v w = .ok (pyFormatValue v w) ∧ (pyFormatValue v w).length = w ∧
      ∀ s, v = .vStr s → pyFormatValue v w = List.replicate (w - s.length) ' ' ++ s) := by
  have hge : w ≤ (pyFormatValue v w).length := by
    cases v with
    | vInt n =>
        show w ≤ (formatIntPadded n w).length
        unfold formatIntPadded
        split
        · simp only [List.length_cons, padLeft_length]
          omega
        · simp only [padLeft_length]
          omega
    | vFloat d =>
        show w ≤ (formatFloatPadded d w).length
        unfold formatFloatPadded
        dsimp only
        split
        · simp only [List.length_cons, padLeft_length]
          omega
        · simp only [padLeft_length]
          omega
    | vStr s =>
        show w ≤ (padLeft ' ' w s).length
        simp only [padLeft_length]
        omega
  by_cases hlen : (pyFormatValue v w).length > w
  · exact Or.inl ⟨hlen, by rw [validate_fixed_width_eq, if_pos hlen]⟩
  · refine Or.inr ⟨by rw [validate_fixed_width_eq, if_neg hlen], by omega, ?_⟩
    rintro s rfl
    rfl

theorem validate_fixed_width_spec_witness :
    validate_fixed_width (.vStr ['a', 'b']) 4 = .ok [' ', ' ', 'a', 'b'] := by
  rcases validate_fixed_width_spec (.vStr ['a', 'b']) 4 with ⟨hlen, _⟩ | ⟨hok, _, _⟩
  · exact absurd hlen (by decide)
  · exact hok

/-- C7 (confirmed): `validate_type` with numeric expected type fails
exactly when the numeric conversion fails or the converted value is
negative; with the string type it fails exactly when the value is not
a string; every success returns the original value unchanged. -/
theorem validate_type_spec (v : PyVal) :
    ((∃ e, validate_type v .tFloat = .error e) ↔
        pyFloatOf v = none ∨ ∃ d, pyFloatOf v = some d ∧ d.num < 0) ∧
    (¬(∃ e, validate_type v .tFloat = .error e) → validate_type v .tFloat = .ok v) ∧
    ((∃ e, validate_type v .tInt = .error e) ↔
        pyIntOf v = none ∨ ∃ n, pyIntOf v = some n ∧ n < 0) ∧
    (¬(∃ e, validate_type v .tInt = .error e) → validate_type v .tInt = .ok v) ∧
    ((∃ e, validate_type v .tStr = .error e) ↔ ∀ s, v ≠ .vStr s) ∧
    (¬(∃ e, validate_type v .tStr = .error e) → validate_type v .tStr = .ok v) := by
  refine ⟨?_, ?_, ?_, ?_, ?_, ?_⟩
  · unfold validate_type
    cases hf : pyFloatOf v with
    | none => simp
    | some d =>
        by_cases hd : d.num < 0
        · simp [if_pos hd, hd]
        · simp [if_neg hd, hd]
  · unfold validate_type
    cases hf : pyFloatOf v with
    | none => simp
    | some d =>
        by_cases hd : d.num < 0
        · simp [if_pos hd]
        · simp [if_neg hd]
  · unfold validate_type
    cases hf : pyIntOf v with
    | none => simp
    | some n =>
        by_cases hd : n < 0
        · simp [if_pos hd, hd]
        · simp [if_neg hd, hd]
  · unfold validate_type
    cases hf : pyIntOf v with
    | none => simp
    | some n =>
        by_cases hd : n < 0
        · simp [if_pos hd]
        · simp [if_neg hd]
  · cases v <;> simp [validate_type]
  · cases v <;> simp [validate_type]

theorem validate_type_spec_witness :
    ∃ e, validate_type (.vStr ['-', '5']) .tFloat = .error e :=
  (validate_type_spec (.vStr ['-', '5'])).1.mpr
    (Or.inr ⟨{ num := -5, exp := 0 }, rfl, by decide⟩)

/-- C9 (corrected): `save_file` serializes the header, each transaction
in order, then the footer, one fixed-width line each; it fails exactly
when the target file itself does not already exist or an IO error
occurs.  (The specification instead requires only the containing
directory to exist --- see the counterexample.) -/
theorem save_file_serialization_and_failure (fs : FileSystem) (s : Session)
    (h0 : Header) (f0 : Footer) (hh : s.header = some h0) (hf : s.footer = some f0) :
    (fs.fileExists = true ∧ fs.ioError = false →
      save_file fs s = .ok (h0.to_fixed_width_string ::
        s.transactions.map Transaction.to_fixed_width_string ++ [f0.to_fixed_width_string])) ∧
    (fs.fileExists = false ∨ fs.ioError = true → ∃ e, save_file fs s = .error e) := by
  unfold save_file
  constructor
  · rintro ⟨hfe, hio⟩
    rw [hfe, hio, hh, hf]
    rfl
  · rintro (hfe | hio)
    · rw [hfe]
      exact ⟨_, rfl⟩
    · rw [hio, hh, hf]
      cases hfe : fs.fileExists
      · exact ⟨_, rfl⟩
      · exact ⟨_, rfl⟩

theorem save_file_serialization_witness :
    save_file ⟨true, true, false⟩ exSessionOK = .ok [exHeaderLine, exTxLine1, exFooterLine] :=
  (save_file_serialization_and_failure ⟨true, true, false⟩ exSessionOK _ _ rfl rfl).1 ⟨rfl, rfl⟩

/-- C9 counterexample: the containing directory exists and there is no
IO error, yet `save_file` fails because the target file itself does not
exist; the specification's failure condition does not hold here. -/
theorem save_file_failure_condition_counterexample :
    (∃ e, save_file ⟨false, true, false⟩ exSessionOK = .error e) ∧
    ¬ save_fails_according_to_spec ⟨false, true, false⟩ := by
  constructor
  · exact ⟨_, rfl⟩
  · rintro (h | h) <;> simp [save_fails_according_to_spec] at h

/-- C1 (corrected): a failing `read_file` always leaves
`is_loaded = false`, so the session is treated as unloaded by the data
accessors; however, records built before the failure are not discarded
(see the counterexample), so the load is not atomic in the stronger
sense the claim states. -/
theorem read_file_failure_leaves_unloaded (fileExists : Bool) (lines : List Str)
    (s0 : Session) (e : PyError) (h : (read_file fileExists lines s0).2 = some e) :
    (read_file fileExists lines s0).1.is_loaded = false := by
  rcases read_file_error_state fileExists lines s0 with h2 | h2
  · rw [h] at h2
    exact absurd h2 (by simp)
  · exact h2

theorem read_file_failure_leaves_unloaded_witness :
    (read_file true exLinesMismatch freshSession).1.is_loaded = false :=
  read_file_failure_leaves_unloaded true exLinesMismatch freshSession
    (.fileFormatError "Currency mismatch found") (by rfl)

/-- C1 counterexample: loading a file whose second transaction line
carries a different currency fails, yet the resulting session still
holds the header and the first transaction that were built during the
failed load --- the containers are not left empty. -/
theorem read_file_partial_records_counterexample :
    (read_file true exLinesMismatch freshSession).2
        = some (.fileFormatError "Currency mismatch found") ∧
    (read_file true exLinesMismatch freshSession).1.is_loaded = false ∧
    (read_file true exLinesMismatch freshSession).1.transactions.length = 1 ∧
    (read_file true exLinesMismatch freshSession).1.header ≠ none := by
  refine ⟨rfl, rfl, rfl, by decide⟩

/-- C8 (confirmed): a successful load reads the file-wide currency from
the first transaction line, requires it to be one of the allowed codes,
stores it in the session, and every interior line's parsed currency
equals it --- so any transaction line with a differing currency makes
the load fail. -/
theorem read_file_currency_consistency (lines : List Str) (s0 s' : Session)
    (h : read_file true lines s0 = (s', none)) :
    ∃ l1 td1, lines.get? 1 = some l1 ∧ parse_transaction_data l1 = .ok td1 ∧
      td1.currency ∈ ALLOWED_CURRENCIES ∧ s'.currency = td1.currency ∧
      ∀ l ∈ (lines.drop 1).dropLast,
        ∃ td, parse_transaction_data l = .ok td ∧ td.currency = td1.currency := by
  obtain ⟨l1, td1, hd, h0, fd, f0, ts, hl1, hp1, hcur, _, _, _, hrel, _, _, hs'⟩ :=
    read_file_ok_inv h
  refine ⟨l1, td1, hl1, hp1, hcur, by rw [hs'], ?_⟩
  intro l hl
  obtain ⟨t, td, hp, hc, _⟩ := forall₂_mem_left hrel l hl
  exact ⟨td, hp, hc⟩

theorem read_file_currency_consistency_witness :
    ∃ l1 td1, exLinesOK.get? 1 = some l1 ∧ parse_transaction_data l1 = .ok td1 ∧
      td1.currency ∈ ALLOWED_CURRENCIES ∧ exSessionOK.currency = td1.currency ∧
      ∀ l ∈ (exLinesOK.drop 1).dropLast,
        ∃ td, parse_transaction_data l = .ok td ∧ td.currency = td1.currency :=
  read_file_currency_consistency exLinesOK freshSession exSessionOK (by rfl)

/-- C10 (confirmed): `read_file` performs no footer-consistency cross
check: whenever the existence, currency, structural and per-record
validations pass, the load succeeds and sets `is_loaded`, even when the
footer's `total_counter` and `control_sum` disagree with the
transaction lines (the inconsistency hypothesis is never used). -/
theorem read_file_no_footer_crosscheck (lines : List Str) (s0 : Session)
    (l1 : Str) (td1 : TransactionData)
    (hl1 : lines.get? 1 = some l1)
    (hp1 : parse_transaction_data l1 = .ok td1)
    (hcur : td1.currency ∈ ALLOWED_CURRENCIES)
    (hstr : validate_file_structure lines = .ok ())
    (hhd : ∃ hd h0, parse_header_data (lines.headD []) = .ok hd ∧
        create_header (.vStr hd.name) (.vStr hd.surname) (.vStr hd.patronymic) (.vStr hd.address) = .ok h0)
    (htx : ∀ l ∈ (lines.drop 1).dropLast, txOk td1.currency l)
    (hft : ∃ fd f0, parse_footer_data (lines.getLastD []) = .ok fd ∧
        create_footer (.vStr fd.total_counter) (.vStr fd.control_sum) (.vStr fd.reserved) = .ok f0)
    (hinc : footerInconsistent lines) :
    (read_file true lines s0).2 = none ∧ (read_file true lines s0).1.is_loaded = true :=
  read_file_ok_of s0 hl1 hp1 hcur hstr hhd htx hft

theorem read_file_no_footer_crosscheck_witness :
    (read_file true exLinesBadFooter freshSession).2 = none ∧
    (read_file true exLinesBadFooter freshSession).1.is_loaded = true := by
  refine read_file_no_footer_crosscheck exLinesBadFooter freshSession exTxLine1 _
    rfl rfl (by decide) rfl ⟨_, _, rfl, rfl⟩ ?_ ⟨_, _, rfl, rfl⟩ ?_
  · intro l hl
    rw [show (exLinesBadFooter.drop 1).dropLast = [exTxLine1] from rfl, List.mem_singleton] at hl
    subst hl
    exact ⟨_, _, rfl, rfl, rfl⟩
  · exact Or.inl (by decide)

/-- Case analysis of `update_footer`: the computed new values, and
which of them is committed when each validation passes or fails. -/
theorem update_footer_cases (f : Footer) (amount : Str) (n : Int) (cs am : Dec)
    (hn : parseIntStr f.total_counter = some n)
    (hcs : parseFloatStr f.control_sum = some cs)
    (ham : parseFloatStr amount = some am) :
    (∃ e, validate_field_value .tFloat 12 (.vStr (padLeft '0' 12 (format2f (cs.add am)))) = .error e ∧
        update_footer amount f = (f, some e)) ∨
    (∃ e v, validate_field_value .tFloat 12 (.vStr (padLeft '0' 12 (format2f (cs.add am)))) = .ok v ∧
        validate_field_value .tInt 6 (.vStr (formatIntPadded (n + 1) 6)) = .error e ∧
        update_footer amount f = ({ f with control_sum := v }, some e)) ∨
    (∃ v1 v2, validate_field_value .tFloat 12 (.vStr (padLeft '0' 12 (format2f (cs.add am)))) = .ok v1 ∧
        validate_field_value .tInt 6 (.vStr (formatIntPadded (n + 1) 6)) = .ok v2 ∧
        update_footer amount f = ({ f with control_sum := v1, total_counter := v2 }, none)) := by
  unfold update_footer
  rw [hn, hcs, ham]
  dsimp only
  cases h1 : validate_field_value .tFloat 12 (.vStr (padLeft '0' 12 (format2f (cs.add am)))) with
  | error e => exact Or.inl ⟨e, rfl, rfl⟩
  | ok v1 =>
      cases h2 : validate_field_value .tInt 6 (.vStr (formatIntPadded (n + 1) 6)) with
      | error e => exact Or.inr (Or.inl ⟨e, v1, rfl, rfl, rfl⟩)
      | ok v2 => exact Or.inr (Or.inr ⟨v1, v2, rfl, rfl, rfl⟩)

/-- C3 (corrected): `update_footer` computes the new `total_counter`
(current value + 1, zero-padded to width 6) and the new `control_sum`
(current value + amount, formatted to two decimals and left zero-padded
to width 12), but it validates and commits `control_sum` FIRST: if the
`control_sum` validation fails the footer is unchanged, while if it
succeeds and the `total_counter` validation then fails, the new
`control_sum` is already stored and only `total_counter` keeps its
prior value.  The error propagates in both failure cases. -/
theorem update_footer_commit_order (f : Footer) (amount : Str) (n : Int) (cs am : Dec)
    (hn : parseIntStr f.total_counter = some n)
    (hcs : parseFloatStr f.control_sum = some cs)
    (ham : parseFloatStr amount = some am) :
    (∃ e, validate_field_value .tFloat 12 (.vStr (padLeft '0' 12 (format2f (cs.add am)))) = .error e ∧
        update_footer amount f = (f, some e)) ∨
    (∃ e v, validate_field_value .tFloat 12 (.vStr (padLeft '0' 12 (format2f (cs.add am)))) = .ok v ∧
        validate_field_value .tInt 6 (.vStr (formatIntPadded (n + 1) 6)) = .error e ∧
        update_footer amount f = ({ f with control_sum := v }, some e)) ∨
    (∃ v1 v2, validate_field_value .tFloat 12 (.vStr (padLeft '0' 12 (format2f (cs.add am)))) = .ok v1 ∧
        validate_field_value .tInt 6 (.vStr (formatIntPadded (n + 1) 6)) = .ok v2 ∧
        update_footer amount f = ({ f with control_sum := v1, total_counter := v2 }, none)) :=
  update_footer_cases f amount n cs am hn hcs ham

theorem update_footer_commit_order_witness :
    ∃ v1 v2, update_footer "50.00".data exFooterSmall
      = ({ exFooterSmall with control_sum := v1, total_counter := v2 }, none) := by
  rcases update_footer_commit_order exFooterSmall "50.00".data 1
      { num := 10000, exp := 2 } { num := 5000, exp := 2 } rfl rfl rfl with
    ⟨e, h1, _⟩ | ⟨e, v, h1, h2, _⟩ | ⟨v1, v2, h1, h2, h3⟩
  · rw [show validate_field_value .tFloat 12
        (.vStr (padLeft '0' 12 (format2f (Dec.add { num := 10000, exp := 2 } { num := 5000, exp := 2 }))))
        = Except.ok "000000150.00".data from rfl] at h1
    exact nomatch h1
  · rw [show validate_field_value .tInt 6 (.vStr (formatIntPadded (1 + 1) 6))
        = Except.ok "000002".data from rfl] at h2
    exact nomatch h2
  · exact ⟨v1, v2, h3⟩

/-- C3 counterexample: with `total_counter = "999999"` the update of
1.00 stores the new `control_sum` and then fails validating the
7-character `total_counter`: the footer is NOT left unchanged on this
validation failure, refuting the claim's atomicity. -/
theorem update_footer_atomicity_counterexample :
    update_footer "1.00".data exFooter999999
      = ({ exFooter999999 with control_sum := "000000001.00".data },
         some (.dataValidationError "Formatted value exceeds maximum width")) ∧
    "000000001.00".data ≠ exFooter999999.control_sum := by
  exact ⟨rfl, by decide⟩

theorem formatIntPadded_length_ge (m : Int) (w : Nat) : w ≤ (formatIntPadded m w).length := by
  unfold formatIntPadded
  split
  · simp only [List.length_cons, padLeft_length]
    omega
  · simp only [padLeft_length]
    omega

theorem natDigitsFuel_length_le (k : Nat) :
    ∀ fuel n, n ≤ fuel → n < 10 ^ (k + 1) → (natDigitsFuel (fuel + 1) n).length ≤ k + 1 := by
  induction k with
  | zero =>
      intro fuel n _ hn
      have h10 : n < 10 := by simpa using hn
      rw [natDigitsFuel_single fuel n h10]
      simp
  | succ j ihk =>
      intro fuel n hfuel hn
      by_cases h10 : n < 10
      · rw [natDigitsFuel_single fuel n h10]
        simp
      · have e1 : natDigitsFuel (fuel + 1) n
            = if n < 10 then [n] else natDigitsFuel fuel (n / 10) ++ [n % 10] := by
          cases fuel with
          | zero => omega
          | succ f => rfl
        rw [e1, if_neg h10]
        have hfuel' : fuel = (fuel - 1) + 1 := by omega
        rw [List.length_append, hfuel']
        have hdiv : n / 10 < 10 ^ (j + 1) := by
          rw [Nat.div_lt_iff_lt_mul (by omega)]
          calc n < 10 ^ (j + 1 + 1) := hn
            _ = 10 ^ (j + 1) * 10 := by ring
        have := ihk (fuel - 1) (n / 10) (by omega) hdiv
        simpa using this

theorem natDigitChars_length_le {n k : Nat} (h : n < 10 ^ (k + 1)) :
    (natDigitChars n).length ≤ k + 1 := by
  unfold natDigitChars natDigits
  rw [List.length_map]
  exact natDigitsFuel_length_le k n n le_rfl h

theorem Dec.cents_two (c : Int) : (Dec.mk c 2).cents = c := by
  simp [Dec.cents, pow10]

theorem format2f_length_le {D : Dec} (hc0 : 0 ≤ D.cents) (hcb : D.cents < 100000000000) :
    (format2f D).length ≤ 12 := by
  rw [format2f_nonneg D hc0]
  have hA : (natDigitChars (D.cents.natAbs / 100)).length ≤ 9 := by
    have : D.cents.natAbs / 100 < 10 ^ (8 + 1) := by
      have h1 : (D.cents.natAbs : Int) = D.cents := by omega
      have h2 : D.cents.natAbs < 100000000000 := by omega
      omega
    exact natDigitChars_length_le this
  have hB : (natDigitChars (D.cents.natAbs % 100)).length ≤ 2 :=
    natDigitChars_length_le_two (Nat.mod_lt _ (by omega))
  simp only [List.length_append, List.length_cons, padLeft_length]
  omega

theorem formatFloatPadded_eq_padLeft {D : Dec} (w : Nat) (hc0 : 0 ≤ D.cents) :
    formatFloatPadded D w = padLeft '0' w (format2f D) := by
  rw [format2f_nonneg D hc0]
  unfold formatFloatPadded
  dsimp only
  rw [if_neg (by omega)]

theorem padLeft_length_eq {w : Nat} {s : Str} (c : Char) (h : s.length ≤ w) :
    (padLeft c w s).length = w := by
  rw [padLeft_length]
  omega

theorem validate_field_value_str_ok_of {w : Nat} {s : Str} (h : s.length ≤ w) :
    validate_field_value .tStr w (.vStr s) = .ok (padLeft ' ' w s) := by
  unfold validate_field_value validate_type
  dsimp only
  rw [show (do
      let _ ← (Except.ok (PyVal.vStr s) : Except PyError PyVal)
      validate_fixed_width (.vStr s) w) = validate_fixed_width (.vStr s) w from rfl]
  rw [validate_fixed_width_eq]
  have : (pyFormatValue (.vStr s) w).length = w := padLeft_length_eq ' ' h
  rw [if_neg (by omega)]
  rfl

theorem validate_field_value_float_padded_ok {D : Dec} (hc0 : 0 ≤ D.cents)
    (hcb : D.cents < 100000000000) :
    validate_field_value .tFloat 12 (.vStr (padLeft '0' 12 (format2f D)))
      = .ok (padLeft '0' 12 (format2f D)) := by
  unfold validate_field_value
  rw [validate_type_float_str, parseFloatStr_padLeft_format2f D hc0 12]
  dsimp only
  rw [if_neg (by simp; omega)]
  rw [show (do
      let _ ← (Except.ok (PyVal.vStr (padLeft '0' 12 (format2f D))) : Except PyError PyVal)
      validate_fixed_width (.vStr (padLeft '0' 12 (format2f D))) 12)
      = validate_fixed_width (.vStr (padLeft '0' 12 (format2f D))) 12 from rfl]
  rw [validate_fixed_width_eq]
  have hlen : (padLeft '0' 12 (format2f D)).length = 12 :=
    padLeft_length_eq '0' (format2f_length_le hc0 hcb)
  have hlen2 : (pyFormatValue (.vStr (padLeft '0' 12 (format2f D))) 12).length = 12 := by
    show (padLeft ' ' 12 (padLeft '0' 12 (format2f D))).length = 12
    rw [padLeft_eq_self ' ' (by omega)]
    exact hlen
  rw [if_neg (by omega)]
  show Except.ok (padLeft ' ' 12 (padLeft '0' 12 (format2f D))) = _
  rw [padLeft_eq_self ' ' (by omega)]

theorem formatIntPadded_length_eq {m : Int} (hm0 : 0 ≤ m) (hmb : m < 1000000) :
    (formatIntPadded m 6).length = 6 := by
  unfold formatIntPadded
  rw [if_neg (by omega)]
  refine padLeft_length_eq '0' ?_
  have : m.natAbs < 10 ^ (5 + 1) := by omega
  have := natDigitChars_length_le this
  omega

theorem validate_field_value_int_ok_of {m : Int} (hm0 : 0 ≤ m) (hmb : m < 1000000) :
    validate_field_value .tInt 6 (.vStr (formatIntPadded m 6))
      = .ok (formatIntPadded m 6) := by
  unfold validate_field_value
  rw [validate_type_int_str, parseIntStr_formatIntPadded m 6]
  dsimp only
  rw [if_neg (by omega)]
  rw [show (do
      let _ ← (Except.ok (PyVal.vStr (formatIntPadded m 6)) : Except PyError PyVal)
      validate_fixed_width (.vStr (formatIntPadded m 6)) 6)
      = validate_fixed_width (.vStr (formatIntPadded m 6)) 6 from rfl]
  rw [validate_fixed_width_eq]
  have hlen : (formatIntPadded m 6).length = 6 := formatIntPadded_length_eq hm0 hmb
  have hlen2 : (pyFormatValue (.vStr (formatIntPadded m 6)) 6).length = 6 := by
    show (padLeft ' ' 6 (formatIntPadded m 6)).length = 6
    rw [padLeft_eq_self ' ' (by omega)]
    exact hlen
  rw [if_neg (by omega)]
  show Except.ok (padLeft ' ' 6 (formatIntPadded m 6)) = _
  rw [padLeft_eq_self ' ' (by omega)]

theorem validate_type_float_str_ok_of {a : Str} {am : Dec}
    (ham : parseFloatStr a = some am) (ham0 : 0 ≤ am.num) :
    validate_type (.vStr a) .tFloat = .ok (.vStr a) := by
  rw [validate_type_float_str, ham]
  dsimp only
  rw [if_neg (by omega)]

theorem create_transaction_add_ok (m : Int) (am : Dec) (cur : Str)
    (hm0 : 0 ≤ m) (hmb : m < 1000000)
    (ham0 : 0 ≤ am.num) (hamc0 : 0 ≤ am.cents) (hamcb : am.cents < 100000000000)
    (hcur : cur.length ≤ 3) :
    ∃ t, create_transaction (.vStr (formatIntPadded m 6)) (.vFloat am) (.vStr cur)
        (.vStr (List.replicate 96 ' ')) = .ok t := by
  unfold create_transaction
  have h1 : validate_field_value .tStr 6 (.vStr (formatIntPadded m 6))
      = .ok (padLeft ' ' 6 (formatIntPadded m 6)) :=
    validate_field_value_str_ok_of (by rw [formatIntPadded_length_eq hm0 hmb])
  have h2 : validate_field_value .tFloat 12 (.vFloat am) = .ok (formatFloatPadded am 12) := by
    unfold validate_field_value validate_type
    dsimp only [pyFloatOf]
    rw [if_neg (by omega)]
    rw [show (do
        let _ ← (Except.ok (PyVal.vFloat am) : Except PyError PyVal)
        validate_fixed_width (.vFloat am) 12) = validate_fixed_width (.vFloat am) 12 from rfl]
    rw [validate_fixed_width_eq]
    have hl : (pyFormatValue (.vFloat am) 12).length = 12 := by
      show (formatFloatPadded am 12).length = 12
      rw [formatFloatPadded_eq_padLeft 12 hamc0]
      exact padLeft_length_eq '0' (format2f_length_le hamc0 hamcb)
    rw [if_neg (by omega)]
    rfl
  have h3 : validate_field_value .tStr 3 (.vStr cur) = .ok (padLeft ' ' 3 cur) :=
    validate_field_value_str_ok_of hcur
  have h4 : validate_field_value .tStr 97 (.vStr (List.replicate 96 ' '))
      = .ok (padLeft ' ' 97 (List.replicate 96 ' ')) :=
    validate_field_value_str_ok_of (by simp)
  rw [h1, h2, h3, h4]
  exact ⟨_, rfl⟩

theorem update_footer_ok_of {f : Footer} {amount : Str} {n : Int} {cs am : Dec}
    (hn : parseIntStr f.total_counter = some n)
    (hcs : parseFloatStr f.control_sum = some cs)
    (ham : parseFloatStr amount = some am)
    (hn0 : 0 ≤ n + 1) (hnb : n + 1 < 1000000)
    (hc0 : 0 ≤ (cs.add am).cents) (hcb : (cs.add am).cents < 100000000000) :
    update_footer amount f
      = ({ f with
          control_sum := padLeft '0' 12 (format2f (cs.add am)),
          total_counter := formatIntPadded (n + 1) 6 }, none) := by
  unfold update_footer
  rw [hn, hcs, ham]
  dsimp only
  rw [validate_field_value_float_padded_ok hc0 hcb]
  dsimp only
  rw [validate_field_value_int_ok_of hn0 hnb]

theorem add_transaction_ok_of {s : Session} {a : Str} {f : Footer} {n : Int} {cs am : Dec}
    (hs : s.footer = some f)
    (hcur : s.currency.isEmpty = false) (hcurlen : s.currency.length ≤ 3)
    (htlen : (s.transactions.length : Int) + 1 < 1000000)
    (hn : parseIntStr f.total_counter = some n)
    (hcs : parseFloatStr f.control_sum = some cs)
    (ham : parseFloatStr a = some am) (ham0 : 0 ≤ am.num)
    (hamc0 : 0 ≤ am.cents) (hamcb : am.cents < 100000000000)
    (hn0 : 0 ≤ n + 1) (hnb : n + 1 < 1000000)
    (hc0 : 0 ≤ (cs.add am).cents) (hcb : (cs.add am).cents < 100000000000) :
    ∃ t, add_transaction a s
      = ({ s with
          transactions := s.transactions ++ [t],
          footer := some { f with
            control_sum := padLeft '0' 12 (format2f (cs.add am)),
            total_counter := formatIntPadded (n + 1) 6 } }, none) := by
  obtain ⟨t, hct⟩ := create_transaction_add_ok ((s.transactions.length : Int) + 1) am s.currency
    (by omega) htlen ham0 hamc0 hamcb hcurlen
  refine ⟨t, ?_⟩
  unfold add_transaction
  rw [if_neg (by simp [hcur])]
  rw [validate_type_float_str_ok_of ham ham0]
  dsimp only
  rw [ham]
  dsimp only
  rw [hct]
  dsimp only
  rw [hs]
  dsimp only
  rw [update_footer_ok_of hn hcs ham hn0 hnb hc0 hcb]

theorem format2f_congr {D E : Dec} (h : D.cents = E.cents) : format2f D = format2f E := by
  unfold format2f formatFloatPadded
  rw [h]

/-- C5 (corrected): starting from a loaded session, adding amount `a1`
then `a2` (both parseable, non-negative, at most two decimals, all
totals fitting their fixed widths) leaves the footer with
`control_sum` equal to the INITIAL control sum plus `a1 + a2`
(formatted to two decimals and zero-padded to width 12) and
`total_counter` equal to the INITIAL `total_counter` plus 2 (zero
padded to width 6) --- not `a1 + a2` alone, and not the transaction
count plus 2, which coincide with these only when the loaded footer
was already consistent. -/
theorem add_transaction_twice_totals (s : Session) (a1 a2 : Str) (f : Footer)
    (n : Int) (cs d1 d2 : Dec)
    (hs : s.footer = some f)
    (hcur : s.currency.isEmpty = false) (hcurlen : s.currency.length ≤ 3)
    (htlen : (s.transactions.length : Int) + 2 < 1000000)
    (hn : parseIntStr f.total_counter = some n) (hn0 : 0 ≤ n) (hnb : n + 2 < 1000000)
    (hcs : parseFloatStr f.control_sum = some cs) (hcs0 : 0 ≤ cs.num) (hcse : cs.exp ≤ 2)
    (h1 : parseFloatStr a1 = some d1) (h10 : 0 ≤ d1.num) (h1e : d1.exp ≤ 2)
    (h2 : parseFloatStr a2 = some d2) (h20 : 0 ≤ d2.num) (h2e : d2.exp ≤ 2)
    (hsum : cs.cents + d1.cents + d2.cents < 100000000000) :
    ∃ f2, (add_transaction a2 (add_transaction a1 s).1).1.footer = some f2 ∧
      f2.total_counter = formatIntPadded (n + 2) 6 ∧
      f2.control_sum = padLeft '0' 12 (format2f (Dec.mk (cs.cents + d1.cents + d2.cents) 2)) ∧
      (add_transaction a2 (add_transaction a1 s).1).1.transactions.length
        = s.transactions.length + 2 ∧
      (add_transaction a2 (add_transaction a1 s).1).2 = none := by
  have hcsc := Dec.cents_nonneg hcs0 hcse
  have hd1c := Dec.cents_nonneg h10 h1e
  have hd2c := Dec.cents_nonneg h20 h2e
  have hadd1 : (cs.add d1).cents = cs.cents + d1.cents := Dec.cents_add hcse h1e
  obtain ⟨t1, he1⟩ := add_transaction_ok_of hs hcur hcurlen (by omega) hn hcs h1 h10 hd1c
    (by omega) (by omega) (by omega) (by rw [hadd1]; omega) (by rw [hadd1]; omega)
  rw [he1]
  dsimp only
  have hn2 : parseIntStr (formatIntPadded (n + 1) 6) = some (n + 1) :=
    parseIntStr_formatIntPadded (n + 1) 6
  have hcs2 : parseFloatStr (padLeft '0' 12 (format2f (cs.add d1)))
      = some (Dec.mk (cs.add d1).cents 2) :=
    parseFloatStr_padLeft_format2f (cs.add d1) (by rw [hadd1]; omega) 12
  have hadd2 : ((Dec.mk (cs.add d1).cents 2).add d2).cents
      = cs.cents + d1.cents + d2.cents := by
    rw [Dec.cents_add (by simp) h2e, Dec.cents_two, hadd1]
  obtain ⟨t2, he2⟩ := add_transaction_ok_of (show ({ s with
      transactions := s.transactions ++ [t1],
      footer := some { f with
        control_sum := padLeft '0' 12 (format2f (cs.add d1)),
        total_counter := formatIntPadded (n + 1) 6 } } : Session).footer
        = some { f with
          control_sum := padLeft '0' 12 (format2f (cs.add d1)),
          total_counter := formatIntPadded (n + 1) 6 } from rfl)
    hcur hcurlen (by simp; omega) hn2 hcs2 h2 h20 hd2c
    (by omega) (by omega) (by omega) (by rw [hadd2]; omega) (by rw [hadd2]; omega)
  rw [he2]
  dsimp only
  refine ⟨_, rfl, ?_, ?_, by simp, rfl⟩
  · have hnn : n + 1 + 1 = n + 2 := by ring
    rw [hnn]
  · refine congrArg (padLeft '0' 12) (format2f_congr ?_)
    rw [hadd2, Dec.cents_two]

theorem add_transaction_twice_totals_witness :
    ∃ f2, (add_transaction "25.00".data (add_transaction "50.00".data exSessionOK).1).1.footer = some f2 ∧
      f2.total_counter = formatIntPadded 3 6 ∧
      f2.control_sum = padLeft '0' 12 (format2f (Dec.mk 17500 2)) ∧
      (add_transaction "25.00".data (add_transaction "50.00".data exSessionOK).1).1.transactions.length
        = exSessionOK.transactions.length + 2 ∧
      (add_transaction "25.00".data (add_transaction "50.00".data exSessionOK).1).2 = none :=
  add_transaction_twice_totals exSessionOK "50.00".data "25.00".data _ 1
    (Dec.mk 10000 2) (Dec.mk 5000 2) (Dec.mk 2500 2) rfl rfl (by decide) (by decide)
    rfl (by decide) (by decide) rfl (by decide) (by decide)
    rfl (by decide) (by decide) rfl (by decide) (by decide) (by decide)

/-- C5 counterexample: loading the valid file whose footer carries
total_counter "000005" and control_sum "000000003.00" over a single
100.00 transaction, then adding 1.00 twice, produces control_sum
"000000005.00" (not "000000002.00", which is a1 + a2) and total_counter
"000007" (not "000003", which is the transaction count plus 2): the
update accumulates onto the loaded footer values. -/
theorem add_transaction_twice_counterexample :
    (add_transaction "1.00".data (add_transaction "1.00".data exSessionBad).1).2 = none ∧
    exSessionBad.transactions.length = 1 ∧
    ∃ f2, (add_transaction "1.00".data (add_transaction "1.00".data exSessionBad).1).1.footer = some f2 ∧
      f2.control_sum = "000000005.00".data ∧ ¬ f2.control_sum = "000000002.00".data ∧
      f2.total_counter = "000007".data ∧ ¬ f2.total_counter = "000003".data := by
  exact ⟨rfl, rfl, ⟨_, rfl, rfl, by decide, rfl, by decide⟩⟩

theorem parse_header_data_ok_inv {l : Str} {hd : HeaderData}
    (h : parse_header_data l = .ok hd) :
    hd = { name := pyStrip (pySlice 2 30 l), surname := pyStrip (pySlice 30 60 l)
         , patronymic := pyStrip (pySlice 60 90 l), address := pyStrip (pySlice 90 120 l) } := by
  unfold parse_header_data at h
  split at h
  · exact nomatch h
  · injection h with h1
    exact h1.symm

theorem parse_transaction_data_ok_inv {l : Str} {td : TransactionData}
    (h : parse_transaction_data l = .ok td) :
    td = { counter := pyStrip (pySlice 2 8 l), amount := pyStrip (pySlice 8 20 l)
         , currency := pyStrip (pySlice 20 23 l), reserved := pyStrip (pySlice 23 120 l) } := by
  unfold parse_transaction_data at h
  split at h
  · exact nomatch h
  · injection h with h1
    exact h1.symm

theorem parse_footer_data_ok_inv {l : Str} {fd : FooterData}
    (h : parse_footer_data l = .ok fd) :
    fd = { total_counter := pyStrip (pySlice 2 8 l), control_sum := pyStrip (pySlice 8 20 l)
         , reserved := pyStrip (pySlice 20 120 l) } := by
  unfold parse_footer_data at h
  split at h
  · exact nomatch h
  · injection h with h1
    exact h1.symm

theorem pySlice_full {c : Str} (hlen : c.length = 120) : pySlice 0 120 c = c := by
  unfold pySlice
  simp only [List.drop_zero, Nat.sub_zero]
  exact List.take_of_length_le (by omega)

theorem header_line_round_trip {l : Str} {hd : HeaderData} {h0 : Header}
    (hlen : (rstripCRLF l).length = 120)
    (htag : "01".data.isPrefixOf l = true)
    (hph : parse_header_data l = .ok hd)
    (hch : create_header (.vStr hd.name) (.vStr hd.surname) (.vStr hd.patronymic) (.vStr hd.address) = .ok h0)
    (hcanon : canonicalHeaderContent (rstripCRLF l)) :
    h0.to_fixed_width_string = rstripCRLF l := by
  obtain ⟨hc1, hc2, hc3, hc4⟩ := hcanon
  have hdv := parse_header_data_ok_inv hph
  have h0v := create_header_ok_inv hch
  have e1 : pySlice 2 30 l = pySlice 2 30 (rstripCRLF l) := pySlice_rstripCRLF 2 30 l (by omega)
  have e2 : pySlice 30 60 l = pySlice 30 60 (rstripCRLF l) := pySlice_rstripCRLF 30 60 l (by omega)
  have e3 : pySlice 60 90 l = pySlice 60 90 (rstripCRLF l) := pySlice_rstripCRLF 60 90 l (by omega)
  have e4 : pySlice 90 120 l = pySlice 90 120 (rstripCRLF l) := pySlice_rstripCRLF 90 120 l (by omega)
  have htake : (rstripCRLF l).take 2 = (['0', '1'] : Str) := by
    have h2 : List.take 2 l = "01".data := take_of_isPrefixOf htag
    rw [take_rstripCRLF 2 l (by omega)] at h2
    exact h2
  rw [h0v, hdv]
  unfold Header.to_fixed_width_string
  dsimp only
  rw [e1, e2, e3, e4]
  unfold canonicalField at hc1 hc2 hc3 hc4
  rw [hc1, hc2, hc3, hc4]
  simp only [List.append_assoc]
  rw [show pySlice 60 90 (rstripCRLF l) ++ pySlice 90 120 (rstripCRLF l)
      = pySlice 60 120 (rstripCRLF l) from pySlice_append (by omega) (by omega) _]
  rw [show pySlice 30 60 (rstripCRLF l) ++ pySlice 60 120 (rstripCRLF l)
      = pySlice 30 120 (rstripCRLF l) from pySlice_append (by omega) (by omega) _]
  rw [show pySlice 2 30 (rstripCRLF l) ++ pySlice 30 120 (rstripCRLF l)
      = pySlice 2 120 (rstripCRLF l) from pySlice_append (by omega) (by omega) _]
  rw [← htake, ← pySlice_zero_two]
  rw [show pySlice 0 2 (rstripCRLF l) ++ pySlice 2 120 (rstripCRLF l)
      = pySlice 0 120 (rstripCRLF l) from pySlice_append (by omega) (by omega) _]
  exact pySlice_full hlen

theorem transaction_line_round_trip {l : Str} {td : TransactionData} {t : Transaction}
    (hlen : (rstripCRLF l).length = 120)
    (htag : "02".data.isPrefixOf l = true)
    (hp : parse_transaction_data l = .ok td)
    (hcr : create_transaction (.vStr td.counter) (.vStr td.amount) (.vStr td.currency) (.vStr td.reserved) = .ok t)
    (hcanon : canonicalTransactionContent (rstripCRLF l)) :
    t.to_fixed_width_string = rstripCRLF l := by
  obtain ⟨hc1, hc2, hc3, hc4⟩ := hcanon
  have htdv := parse_transaction_data_ok_inv hp
  have htv := create_transaction_ok_inv hcr
  have e1 : pySlice 2 8 l = pySlice 2 8 (rstripCRLF l) := pySlice_rstripCRLF 2 8 l (by omega)
  have e2 : pySlice 8 20 l = pySlice 8 20 (rstripCRLF l) := pySlice_rstripCRLF 8 20 l (by omega)
  have e3 : pySlice 20 23 l = pySlice 20 23 (rstripCRLF l) := pySlice_rstripCRLF 20 23 l (by omega)
  have e4 : pySlice 23 120 l = pySlice 23 120 (rstripCRLF l) := pySlice_rstripCRLF 23 120 l (by omega)
  have htake : (rstripCRLF l).take 2 = (['0', '2'] : Str) := by
    have h2 : List.take 2 l = "02".data := take_of_isPrefixOf htag
    rw [take_rstripCRLF 2 l (by omega)] at h2
    exact h2
  rw [htv, htdv]
  unfold Transaction.to_fixed_width_string
  dsimp only
  rw [e1, e2, e3, e4]
  unfold canonicalField at hc1 hc2 hc3 hc4
  rw [hc1, hc2, hc3, hc4]
  simp only [List.append_assoc]
  rw [show pySlice 20 23 (rstripCRLF l) ++ pySlice 23 120 (rstripCRLF l)
      = pySlice 20 120 (rstripCRLF l) from pySlice_append (by omega) (by omega) _]
  rw [show pySlice 8 20 (rstripCRLF l) ++ pySlice 20 120 (rstripCRLF l)
      = pySlice 8 120 (rstripCRLF l) from pySlice_append (by omega) (by omega) _]
  rw [show pySlice 2 8 (rstripCRLF l) ++ pySlice 8 120 (rstripCRLF l)
      = pySlice 2 120 (rstripCRLF l) from pySlice_append (by omega) (by omega) _]
  rw [← htake, ← pySlice_zero_two]
  rw [show pySlice 0 2 (rstripCRLF l) ++ pySlice 2 120 (rstripCRLF l)
      = pySlice 0 120 (rstripCRLF l) from pySlice_append (by omega) (by omega) _]
  exact pySlice_full hlen

theorem footer_line_round_trip {l : Str} {fd : FooterData} {f0 : Footer}
    (hlen : (rstripCRLF l).length = 120)
    (htag : "03".data.isPrefixOf l = true)
    (hpf : parse_footer_data l = .ok fd)
    (hcf : create_footer (.vStr fd.total_counter) (.vStr fd.control_sum) (.vStr fd.reserved) = .ok f0)
    (hcanon : canonicalFooterContent (rstripCRLF l)) :
    f0.to_fixed_width_string = rstripCRLF l := by
  obtain ⟨hc1, hc2, hc3⟩ := hcanon
  have hfdv := parse_footer_data_ok_inv hpf
  have hfv := create_footer_ok_inv hcf
  have e1 : pySlice 2 8 l = pySlice 2 8 (rstripCRLF l) := pySlice_rstripCRLF 2 8 l (by omega)
  have e2 : pySlice 8 20 l = pySlice 8 20 (rstripCRLF l) := pySlice_rstripCRLF 8 20 l (by omega)
  have e3 : pySlice 20 120 l = pySlice 20 120 (rstripCRLF l) := pySlice_rstripCRLF 20 120 l (by omega)
  have htake : (rstripCRLF l).take 2 = (['0', '3'] : Str) := by
    have h2 : List.take 2 l = "03".data := take_of_isPrefixOf htag
    rw [take_rstripCRLF 2 l (by omega)] at h2
    exact h2
  rw [hfv, hfdv]
  unfold Footer.to_fixed_width_string
  dsimp only
  rw [e1, e2, e3]
  unfold canonicalField at hc1 hc2 hc3
  rw [hc1, hc2, hc3]
  simp only [List.append_assoc]
  rw [show pySlice 8 20 (rstripCRLF l) ++ pySlice 20 120 (rstripCRLF l)
      = pySlice 8 120 (rstripCRLF l) from pySlice_append (by omega) (by omega) _]
  rw [show pySlice 2 8 (rstripCRLF l) ++ pySlice 8 120 (rstripCRLF l)
      = pySlice 2 120 (rstripCRLF l) from pySlice_append (by omega) (by omega) _]
  rw [← htake, ← pySlice_zero_two]
  rw [show pySlice 0 2 (rstripCRLF l) ++ pySlice 2 120 (rstripCRLF l)
      = pySlice 0 120 (rstripCRLF l) from pySlice_append (by omega) (by omega) _]
  exact pySlice_full hlen

theorem dropLast_append_getLastD : ∀ (t : List Str) (b : Str),
    (b :: t).dropLast ++ [(b :: t).getLastD []] = b :: t := by
  intro t
  induction t with
  | nil => intro b; rfl
  | cons c t2 ih =>
      intro b
      show b :: ((c :: t2).dropLast ++ [(c :: t2).getLastD []]) = b :: c :: t2
      rw [ih c]

theorem lines_decomp {lines : List Str} (h : 2 ≤ lines.length) :
    lines = lines.headD [] :: ((lines.drop 1).dropLast ++ [lines.getLastD []]) := by
  cases lines with
  | nil => simp at h
  | cons a rest =>
      cases rest with
      | nil => simp at h
      | cons b t =>
          show a :: b :: t = a :: ((b :: t).dropLast ++ [(a :: b :: t).getLastD []])
          rw [show (a :: b :: t).getLastD [] = (b :: t).getLastD [] from rfl]
          rw [dropLast_append_getLastD]

theorem headD_mem {lines : List Str} (h : lines ≠ []) : lines.headD [] ∈ lines := by
  cases lines with
  | nil => exact absurd rfl h
  | cons a t => exact List.mem_cons_self a t

theorem getLastD_mem : ∀ {lines : List Str}, lines ≠ [] → lines.getLastD [] ∈ lines := by
  intro lines
  induction lines with
  | nil => intro h; exact absurd rfl h
  | cons a t ih =>
      intro _
      cases t with
      | nil => exact List.mem_cons_self _ _
      | cons b t2 => exact List.mem_cons_of_mem a (ih (by simp))

theorem interior_mem {lines : List Str} {l : Str}
    (hl : l ∈ (lines.drop 1).dropLast) : l ∈ lines :=
  List.drop_subset 1 lines ((List.dropLast_sublist _).subset hl)

theorem forall₂_map_eq {R : Str → Transaction → Prop}
    {f : Str → Str} {g : Transaction → Str} :
    ∀ {ls : List Str} {ts : List Transaction}, List.Forall₂ R ls ts →
    (∀ l ∈ ls, ∀ t, R l t → g t = f l) →
    ts.map g = ls.map f := by
  intro ls ts h
  induction h with
  | nil => intro hpt; rfl
  | cons hR hrest ih =>
      intro hpt
      simp only [List.map_cons]
      rw [hpt _ (List.mem_cons_self _ _) _ hR,
        ih (fun l hl t ht => hpt l (List.mem_cons_of_mem _ hl) t ht)]

/-- C2 (corrected): loading a file whose every field slice is already
in the canonical right-justified stored form, then saving it
immediately with no edits, writes back exactly the input lines
(stripped of their line terminators).  For a merely valid file the
round trip is not byte-identical: `validate_fixed_width` re-pads each
stripped field right-justified, so saving canonicalizes any field that
was stored left-justified. -/
theorem load_save_round_trip_canonical (lines : List Str) (s2 : Session)
    (hread : read_file true lines freshSession = (s2, none))
    (hcH : canonicalHeaderContent (rstripCRLF (lines.headD [])))
    (hcT : ∀ l ∈ (lines.drop 1).dropLast, canonicalTransactionContent (rstripCRLF l))
    (hcF : canonicalFooterContent (rstripCRLF (lines.getLastD []))) :
    save_file ⟨true, true, false⟩ s2 = .ok (lines.map rstripCRLF) := by
  obtain ⟨l1, td1, hd, h0, fd, f0, ts, hl1, hp1, hcur, hstr, hph, hch, hrel, hpf, hcf, hs⟩ :=
    read_file_ok_inv hread
  obtain ⟨hlen3, hall, h01, h03, h02, hcnt⟩ := validate_file_structure_ok_inv hstr
  have hne : lines ≠ [] := by
    intro hnil
    rw [hnil] at hlen3
    simp at hlen3
  have hH : h0.to_fixed_width_string = rstripCRLF (lines.headD []) :=
    header_line_round_trip (hall _ (headD_mem hne)) h01 hph hch hcH
  have hF : f0.to_fixed_width_string = rstripCRLF (lines.getLastD []) :=
    footer_line_round_trip (hall _ (getLastD_mem hne)) h03 hpf hcf hcF
  have hT : ts.map Transaction.to_fixed_width_string
      = ((lines.drop 1).dropLast).map rstripCRLF := by
    refine forall₂_map_eq hrel ?_
    intro l hl t ht
    obtain ⟨td, hp, hcureq, hcr⟩ := ht
    exact transaction_line_round_trip (hall _ (interior_mem hl)) (h02 _ hl) hp hcr (hcT _ hl)
  subst hs
  have hsave : save_file ⟨true, true, false⟩
      { header := some h0
      , transactions := (if freshSession.is_loaded then [] else freshSession.transactions) ++ ts
      , footer := some f0
      , is_loaded := true
      , currency := td1.currency }
      = .ok (h0.to_fixed_width_string :: ts.map Transaction.to_fixed_width_string
          ++ [f0.to_fixed_width_string]) := rfl
  rw [hsave, hH, hF, hT]
  conv_rhs => rw [lines_decomp (show 2 ≤ lines.length by omega), List.map_cons, List.map_append]
  rfl

/-- C2 witness: the canonical three-line example file loads without
error and saving the loaded session reproduces its lines exactly. -/
theorem load_save_round_trip_canonical_witness :
    read_file true exLinesOK freshSession = (exSessionOK, none) ∧
    save_file ⟨true, true, false⟩ exSessionOK = .ok (exLinesOK.map rstripCRLF) :=
  ⟨rfl, load_save_round_trip_canonical exLinesOK exSessionOK rfl (by decide) (by decide)
    (by decide)⟩

/-- C2 counterexample to the claim as stated: a file whose header name
is stored left-justified passes every `read_file` validation (the load
returns no error), yet saving the loaded session writes lines that
differ from the input — the name comes back right-justified. -/
theorem load_save_round_trip_counterexample :
    (read_file true exLinesLeft freshSession).2 = none ∧
    ∃ out, save_file ⟨true, true, false⟩ (read_file true exLinesLeft freshSession).1 = .ok out ∧
      out ≠ exLinesLeft ∧ out ≠ exLinesLeft.map rstripCRLF :=
  ⟨rfl, _, rfl, by decide, by decide⟩
